import Mathlib

/-!
Verification development for the MATSUlab issue-exchange analysis pipeline.

The definitions below are a shallow embedding of the record-reconciliation and
metric-derivation layer of the repository:

  * `src/calculate_metrics.py` — `normalize_datetime`, `merge_experiment_data`,
    `merge_iss_data`, `calculate_conversion_rate`, `calculate_time_to_claim`,
    `_build_relation_map`, `_find_linked_res_nodes`,
    `calculate_time_to_first_result`;
  * `src/parse_roam_json.py` — `get_block_timestamp`, `find_block_by_content`,
    `extract_claimed_by_timestamp`, `extract_made_by_timestamp`,
    `extract_author_from_page`, `validate_roam_export`;
  * `src/experiment_lifecycle_visualizations.py` — `kaplan_meier`.

Modelling conventions:

  * Python `datetime` values are modelled by `PyDateTime`: a wall-clock instant
    in integer milliseconds plus an optional timezone offset (present iff the
    datetime is timezone-aware).  Subtraction of naive datetimes followed by
    `.days` is floor division of the millisecond difference by 86400000,
    exactly as `timedelta.days` behaves.
  * Python strings that hold ISO date text are modelled at the granularity the
    code observes them: `CreatedField.absent` (missing or empty, falsy),
    `CreatedField.invalid` (non-empty but unparseable), `CreatedField.valid dt`
    (non-empty and parsed by `parse_date` to `dt`).
  * Python truthiness of an optional string (`if made_by:`) is `truthyS`:
    true iff the value is present and non-empty.  Python truthiness of an
    optional datetime or of a tuple is `Option.isSome` (datetimes and tuples
    are always truthy in Python).
  * Float arithmetic is modelled with `Rat`; `round(x, k)` and the `:.1%`
    format use round-half-even, as Python does.
-/

/-- Model of a Python `datetime`: wall-clock milliseconds since the epoch, and
an optional UTC-offset in milliseconds (`none` = timezone-naive). -/
structure PyDateTime where
  ms : Int
  tzOffsetMs : Option Int := none
deriving DecidableEq, Repr

/-- `dt.astimezone(timezone.utc).replace(tzinfo=None)` for an aware datetime;
identity for a naive one. -/
def normDT (d : PyDateTime) : PyDateTime :=
  match d.tzOffsetMs with
  | none => d
  | some o => { ms := d.ms - o, tzOffsetMs := none }

/-- `normalize_datetime` from `calculate_metrics.py` (lines 25-35): `None`
passes through; an aware datetime is converted to UTC and made naive. -/
def normalize_datetime : Option PyDateTime → Option PyDateTime
  | none => none
  | some d => some (normDT d)

/-- Python truthiness of an optional string: `None` and `""` are falsy. -/
def truthyS : Option String → Bool
  | none => false
  | some s => s ≠ ""

/-- `(a - b).days` for two naive datetimes: `timedelta.days` is the floor of
the total duration in days. -/
def daysBetween (a b : PyDateTime) : Int :=
  (a.ms - b.ms).fdiv 86400000

/-- The `created` string of a semantic-export node, at the granularity the
code observes it: absent/empty (falsy), non-empty but unparseable, or
parseable to a datetime. -/
inductive CreatedField where
  | absent
  | invalid
  | valid (dt : PyDateTime)
deriving DecidableEq, Repr

/-- Python truthiness of the `created` string: any non-empty string is truthy,
whether or not it parses. -/
def CreatedField.truthy : CreatedField → Bool
  | .absent => false
  | _ => true

/-- `parse_date` from `parse_jsonld.py` (lines 319-326): returns `None` for a
falsy string and for an unparseable string, otherwise the parsed datetime
(possibly timezone-aware). -/
def parse_date : CreatedField → Option PyDateTime
  | .valid dt => some dt
  | _ => none

/-- A semantic-export node record as produced by `extract_node_metadata` in
`parse_jsonld.py`, restricted to the fields the merge and validation code
reads.  Person fields are extracted strings (`None` when no pattern matched;
extraction can in principle yield any string). -/
structure JExp where
  uid : String
  title : String
  creator : Option String := none
  created : CreatedField := .absent
  claimed_by : Option String := none
  issue_created_by : Option String := none
  made_by : Option String := none
  author : Option String := none
deriving DecidableEq, Repr

/-- Per-title facts produced by `analyze_all_experiment_pages` in
`parse_roam_json.py` (lines 464-506).  The four person fields carry the
`(person, timestamp)` tuples the extractors return. -/
structure RoamExp where
  page_created : Option PyDateTime := none
  earliest_block_timestamp : Option PyDateTime := none
  claimed_by : Option (String × Option PyDateTime) := none
  issue_created_by : Option (String × Option PyDateTime) := none
  made_by : Option (String × Option PyDateTime) := none
  author : Option (String × Option PyDateTime) := none
  has_experimental_log : Bool := false
  first_log_entry : Option PyDateTime := none
  log_entry_count : Nat := 0
deriving DecidableEq, Repr

/-- The empty dict default used by `roam_timestamps.get(title, {})`. -/
def RoamExp.empty : RoamExp := {}

/-- Per-title facts produced by `analyze_iss_pages` in `parse_roam_json.py`
(lines 509-545). -/
structure RoamIss where
  page_created : Option PyDateTime := none
  made_by : Option (String × Option PyDateTime) := none
  author : Option (String × Option PyDateTime) := none
  has_experimental_log : Bool := false
  first_log_entry : Option PyDateTime := none
  log_entry_count : Nat := 0
deriving DecidableEq, Repr

/-- The empty dict default used by `roam_iss_data.get(title, {})`. -/
def RoamIss.empty : RoamIss := {}

/-- A merged experiment record, the dict built by `merge_experiment_data`
(lines 139-157 of `calculate_metrics.py`). -/
structure MergedExp where
  uid : String
  title : String
  creator : Option String
  page_created : Option PyDateTime
  claimed_by : Option String
  claimed_by_timestamp : Option PyDateTime
  issue_created_by : Option String
  made_by : Option String
  author : Option String
  primary_contributor : Option String
  attribution_method : Option String
  claim_type : Option String
  has_experimental_log : Bool
  first_log_entry : Option PyDateTime
  log_entry_count : Nat
  is_claimed : Bool
deriving DecidableEq, Repr

/-- A merged issue record, the dict built by `merge_iss_data` (lines 206-220
of `calculate_metrics.py`). -/
structure MergedIss where
  uid : String
  title : String
  creator : Option String
  page_created : Option PyDateTime
  made_by : Option String
  author : Option String
  primary_contributor : Option String
  attribution_method : Option String
  has_experimental_log : Bool
  first_log_entry : Option PyDateTime
  log_entry_count : Nat
  is_claimed : Bool
deriving DecidableEq, Repr

/-- The override pattern used for `issue_created_by` / `made_by` / `author`
in both merge functions: the block-tree person replaces the semantic-export
person whenever the extractor found a tuple. -/
def personOverride (roamField : Option (String × Option PyDateTime))
    (jsonldField : Option String) : Option String :=
  match roamField with
  | some pt => some pt.1
  | none => jsonldField

/-- The `primary_contributor` priority chain for experiments
(`calculate_metrics.py` lines 99-114): made_by, then claimed_by, then author,
then the semantic-export creator; each test is Python truthiness. -/
def resolvePrimary (made_by claimed_by author creator : Option String) :
    Option String × Option String :=
  if truthyS made_by then (made_by, some "made_by")
  else if truthyS claimed_by then (claimed_by, some "claimed_by")
  else if truthyS author then (author, some "author")
  else if truthyS creator then (creator, some "creator")
  else (none, none)

/-- The `primary_contributor` priority chain for issues
(`calculate_metrics.py` lines 193-204): made_by, then author, then creator. -/
def resolvePrimaryIss (made_by author_val creator : Option String) :
    Option String × Option String :=
  if truthyS made_by then (made_by, some "made_by")
  else if truthyS author_val then (author_val, some "author")
  else if truthyS creator then (creator, some "creator")
  else (none, none)

/-- Python `min` over a list of naive datetimes: `None`-free minimum, first
minimal element kept on ties. -/
def pyMinDT : List PyDateTime → Option PyDateTime
  | [] => none
  | d :: rest => some (rest.foldl (fun m x => if x.ms < m.ms then x else m) d)

/-- The `page_created_candidates` list built in `merge_experiment_data`
(lines 116-131): the semantic-export `created` (when the string is truthy and
parses), the block-tree page creation timestamp, and the block-tree earliest
block timestamp, each normalized to naive. -/
def pageCreatedCandidates (exp : JExp) (roam_data : RoamExp) : List PyDateTime :=
  (if exp.created.truthy then normalize_datetime (parse_date exp.created) else none).toList
    ++ (normalize_datetime roam_data.page_created).toList
    ++ (normalize_datetime roam_data.earliest_block_timestamp).toList

/-- `merge_experiment_data` for a single experiment
(`calculate_metrics.py` lines 53-157), with `roam_data` the dict looked up by
title. -/
def mergeExperiment (exp : JExp) (roam_data : RoamExp) : MergedExp :=
  -- lines 57-66: block-tree Claimed By overrides, claim_type explicit
  let claimed_by1 : Option String :=
    match roam_data.claimed_by with
    | some pt => some pt.1
    | none => exp.claimed_by
  let claimed_ts1 : Option PyDateTime :=
    match roam_data.claimed_by with
    | some pt => pt.2
    | none => none
  let claim_type1 : Option String :=
    match roam_data.claimed_by with
    | some _ => some "explicit"
    | none => none
  -- lines 68-72
  let issue_created_by1 := personOverride roam_data.issue_created_by exp.issue_created_by
  -- lines 74-84
  let made_by := personOverride roam_data.made_by exp.made_by
  let author := personOverride roam_data.author exp.author
  -- lines 86-97: inferred self-claim
  let infer : Bool := !truthyS claimed_by1 && roam_data.has_experimental_log
      && decide (0 < roam_data.log_entry_count) && truthyS exp.creator
  let claimed_by := if infer then exp.creator else claimed_by1
  let claimed_ts2 :=
    if infer then
      match roam_data.first_log_entry with
      | some d => some d
      | none => claimed_ts1
    else claimed_ts1
  let issue_created_by :=
    if infer && !truthyS issue_created_by1 then exp.creator else issue_created_by1
  let claim_type := if infer then some "inferred" else claim_type1
  -- lines 99-114
  let pa := resolvePrimary made_by claimed_by author exp.creator
  -- lines 116-133
  let page_created := pyMinDT (pageCreatedCandidates exp roam_data)
  -- lines 135-137
  let claimed_by_timestamp := normalize_datetime claimed_ts2
  { uid := exp.uid
    title := exp.title
    creator := exp.creator
    page_created := page_created
    claimed_by := claimed_by
    claimed_by_timestamp := claimed_by_timestamp
    issue_created_by := issue_created_by
    made_by := made_by
    author := author
    primary_contributor := pa.1
    attribution_method := pa.2
    claim_type := claim_type
    has_experimental_log := roam_data.has_experimental_log
    first_log_entry := roam_data.first_log_entry
    log_entry_count := roam_data.log_entry_count
    is_claimed := truthyS claimed_by || roam_data.has_experimental_log }

/-- `merge_experiment_data` over the experiment list, with `roam_timestamps`
the title-keyed dict (absent title = empty dict). -/
def merge_experiment_data (experiment_pages : List JExp)
    (roam_timestamps : String → Option RoamExp) : List MergedExp :=
  experiment_pages.map fun exp =>
    mergeExperiment exp ((roam_timestamps exp.title).getD RoamExp.empty)

/-- `merge_iss_data` for a single issue node (`calculate_metrics.py`
lines 170-220). -/
def mergeIss (iss : JExp) (roam_data : RoamIss) : MergedIss :=
  -- lines 174-178: semantic-export created wins; block-tree page creation is
  -- consulted only when the created string is falsy
  let page_created :=
    if iss.created.truthy then normalize_datetime (parse_date iss.created)
    else if (roam_data.page_created).isSome then normalize_datetime roam_data.page_created
    else none
  let has_log := roam_data.has_experimental_log
  let first_log := normalize_datetime roam_data.first_log_entry
  -- lines 183-191
  let made_by := personOverride roam_data.made_by iss.made_by
  let author_val := personOverride roam_data.author iss.author
  -- lines 193-204
  let pa := resolvePrimaryIss made_by author_val iss.creator
  { uid := iss.uid
    title := iss.title
    creator := iss.creator
    page_created := page_created
    made_by := made_by
    author := author_val
    primary_contributor := pa.1
    attribution_method := pa.2
    has_experimental_log := has_log
    first_log_entry := first_log
    log_entry_count := roam_data.log_entry_count
    is_claimed := has_log }

/-- `merge_iss_data` over the issue list. -/
def merge_iss_data (iss_nodes : List JExp)
    (roam_iss_data : String → Option RoamIss) : List MergedIss :=
  iss_nodes.map fun iss =>
    mergeIss iss ((roam_iss_data iss.title).getD RoamIss.empty)

/-! ### Claim C1: primary-contributor priority chain -/

/-- Claim C1: for every merged record (experiment or issue),
`primary_contributor` is resolved by strict priority over the record's own
stored fields — `made_by`, then (experiments only) `claimed_by`, then
`author`, then the semantic-export `creator` — and `attribution_method`
names exactly the branch that fired.  Presence ("non-null") is formalized as
the source's Python truthiness test (`if made_by:`): present and non-empty. -/
theorem claim_C1 :
    (∀ (exp : JExp) (roam_data : RoamExp),
      ((mergeExperiment exp roam_data).primary_contributor,
       (mergeExperiment exp roam_data).attribution_method) =
        (if truthyS (mergeExperiment exp roam_data).made_by then
           ((mergeExperiment exp roam_data).made_by, some "made_by")
         else if truthyS (mergeExperiment exp roam_data).claimed_by then
           ((mergeExperiment exp roam_data).claimed_by, some "claimed_by")
         else if truthyS (mergeExperiment exp roam_data).author then
           ((mergeExperiment exp roam_data).author, some "author")
         else if truthyS (mergeExperiment exp roam_data).creator then
           ((mergeExperiment exp roam_data).creator, some "creator")
         else (none, none)))
    ∧ (∀ (iss : JExp) (roam_data : RoamIss),
      ((mergeIss iss roam_data).primary_contributor,
       (mergeIss iss roam_data).attribution_method) =
        (if truthyS (mergeIss iss roam_data).made_by then
           ((mergeIss iss roam_data).made_by, some "made_by")
         else if truthyS (mergeIss iss roam_data).author then
           ((mergeIss iss roam_data).author, some "author")
         else if truthyS (mergeIss iss roam_data).creator then
           ((mergeIss iss roam_data).creator, some "creator")
         else (none, none))) := by
  constructor
  · intro exp roam_data
    rfl
  · intro iss roam_data
    rfl

/-! ### Claim C2: pageCreated resolution -/

/-- A normalized creation-time candidate for an experiment record, as the
spec enumerates them: the parsed semantic-export `created`, the block-tree
page-creation timestamp, or the block-tree earliest-block timestamp, each
normalized to a timezone-naive instant. -/
def isCandidate (exp : JExp) (roam_data : RoamExp) (d : PyDateTime) : Prop :=
  normalize_datetime (parse_date exp.created) = some d
  ∨ normalize_datetime roam_data.page_created = some d
  ∨ normalize_datetime roam_data.earliest_block_timestamp = some d

theorem mem_pageCreatedCandidates {exp : JExp} {roam_data : RoamExp} {d : PyDateTime} :
    d ∈ pageCreatedCandidates exp roam_data ↔ isCandidate exp roam_data d := by
  unfold pageCreatedCandidates isCandidate
  cases h : exp.created with
  | absent => simp [CreatedField.truthy, parse_date, normalize_datetime]
  | invalid => simp [CreatedField.truthy, parse_date, normalize_datetime]
  | valid dt =>
    simp only [CreatedField.truthy, if_true, List.mem_append, Option.mem_toList]
    constructor
    · rintro ((h1 | h2) | h3)
      · exact Or.inl h1
      · exact Or.inr (Or.inl h2)
      · exact Or.inr (Or.inr h3)
    · rintro (h1 | h2 | h3)
      · exact Or.inl (Or.inl h1)
      · exact Or.inl (Or.inr h2)
      · exact Or.inr h3

/-- One step of the Python `min` fold. -/
def minStep (m x : PyDateTime) : PyDateTime := if x.ms < m.ms then x else m

theorem minStep_eq (m x : PyDateTime) : minStep m x = m ∨ minStep m x = x := by
  unfold minStep
  by_cases h : x.ms < m.ms <;> simp [h]

theorem minStep_le_left (m x : PyDateTime) : (minStep m x).ms ≤ m.ms := by
  unfold minStep
  split <;> omega

theorem minStep_le_right (m x : PyDateTime) : (minStep m x).ms ≤ x.ms := by
  unfold minStep
  split <;> omega

theorem foldlMin_mem (xs : List PyDateTime) (d : PyDateTime) :
    xs.foldl minStep d = d ∨ xs.foldl minStep d ∈ xs := by
  induction xs generalizing d with
  | nil => simp
  | cons x xs ih =>
    simp only [List.foldl_cons]
    rcases ih (minStep d x) with h | h
    · rw [h]
      rcases minStep_eq d x with h2 | h2
      · exact Or.inl h2
      · exact Or.inr (by simp [h2])
    · exact Or.inr (List.mem_cons_of_mem _ h)

theorem foldlMin_le_init (xs : List PyDateTime) (d : PyDateTime) :
    (xs.foldl minStep d).ms ≤ d.ms := by
  induction xs generalizing d with
  | nil => simp
  | cons x xs ih =>
    simp only [List.foldl_cons]
    exact le_trans (ih (minStep d x)) (minStep_le_left d x)

theorem foldlMin_le_mem (xs : List PyDateTime) (d : PyDateTime) :
    ∀ e ∈ xs, (xs.foldl minStep d).ms ≤ e.ms := by
  induction xs generalizing d with
  | nil => simp
  | cons x xs ih =>
    intro e he
    simp only [List.foldl_cons]
    rcases List.mem_cons.mp he with h | h
    · subst h
      exact le_trans (foldlMin_le_init xs (minStep d e)) (minStep_le_right d e)
    · exact ih (minStep d x) e h

theorem pyMinDT_eq_foldl (l : List PyDateTime) :
    pyMinDT l = match l with
      | [] => none
      | d :: rest => some (rest.foldl minStep d) := by
  cases l <;> rfl

theorem pyMinDT_mem (l : List PyDateTime) (m : PyDateTime)
    (h : pyMinDT l = some m) : m ∈ l := by
  match l with
  | [] => simp [pyMinDT] at h
  | d :: rest =>
    rw [pyMinDT_eq_foldl] at h
    simp only [Option.some.injEq] at h
    subst h
    rcases foldlMin_mem rest d with h2 | h2
    · simp [h2]
    · exact List.mem_cons_of_mem _ h2

theorem pyMinDT_le (l : List PyDateTime) (m : PyDateTime)
    (h : pyMinDT l = some m) : ∀ d ∈ l, m.ms ≤ d.ms := by
  match l with
  | [] => simp [pyMinDT] at h
  | d :: rest =>
    rw [pyMinDT_eq_foldl] at h
    simp only [Option.some.injEq] at h
    subst h
    intro e he
    rcases List.mem_cons.mp he with h2 | h2
    · subst h2
      exact foldlMin_le_init rest e
    · exact foldlMin_le_mem rest d e h2

theorem pyMinDT_none_iff (l : List PyDateTime) : pyMinDT l = none ↔ l = [] := by
  cases l <;> simp [pyMinDT]

/-- Claim C2 (amended): for every merged **experiment** record, `page_created`
is the minimum of the available normalized creation-time candidates — it is a
candidate itself, is less than or equal to every candidate, and is null
exactly when no candidate is available.  For every merged **issue** record the
source does not take a minimum: the (normalized) semantic-export `created`
wins whenever that string is truthy (even when it fails to parse, in which
case `page_created` is null), and the block-tree page-creation timestamp is
consulted only otherwise; the earliest-block timestamp is never a candidate
for issues. -/
theorem claim_C2_amended :
    (∀ (exp : JExp) (roam_data : RoamExp),
      (∀ m, (mergeExperiment exp roam_data).page_created = some m →
        isCandidate exp roam_data m
        ∧ ∀ d, isCandidate exp roam_data d → m.ms ≤ d.ms)
      ∧ ((mergeExperiment exp roam_data).page_created = none ↔
          ∀ d, ¬ isCandidate exp roam_data d))
    ∧ (∀ (iss : JExp) (roam_data : RoamIss),
      (mergeIss iss roam_data).page_created =
        (if iss.created.truthy then normalize_datetime (parse_date iss.created)
         else normalize_datetime roam_data.page_created)) := by
  constructor
  · intro exp roam_data
    have hpc : (mergeExperiment exp roam_data).page_created
        = pyMinDT (pageCreatedCandidates exp roam_data) := rfl
    constructor
    · intro m hm
      rw [hpc] at hm
      refine ⟨mem_pageCreatedCandidates.mp (pyMinDT_mem _ m hm), ?_⟩
      intro d hd
      exact pyMinDT_le _ m hm d (mem_pageCreatedCandidates.mpr hd)
    · rw [hpc, pyMinDT_none_iff]
      constructor
      · intro hnil d hd
        have := mem_pageCreatedCandidates.mpr hd
        rw [hnil] at this
        simp at this
      · intro hnone
        by_contra hne
        match hl : pageCreatedCandidates exp roam_data, hne with
        | d :: rest, _ =>
          exact hnone d (mem_pageCreatedCandidates.mp (by rw [hl]; simp))
  · intro iss roam_data
    show (if iss.created.truthy then normalize_datetime (parse_date iss.created)
          else if (roam_data.page_created).isSome then
            normalize_datetime roam_data.page_created
          else none) = _
    by_cases h1 : iss.created.truthy
    · simp [h1]
    · simp only [h1, if_false]
      cases h2 : roam_data.page_created with
      | none => simp [normalize_datetime]
      | some d => simp [h2, normalize_datetime]

/-- Issue node for the C2 counterexample: semantic-export `created` parses to
2024-05-01T00:00:00 UTC (1714521600000 ms). -/
def issC2 : JExp :=
  { uid := "i2", title := "[[ISS]] - test issue", created := .valid ⟨1714521600000, none⟩ }

/-- Block-tree facts for the C2 counterexample: the page-creation timestamp is
2024-01-01T00:00:00 UTC (1704067200000 ms), earlier than the semantic-export
`created`. -/
def roamIssC2 : RoamIss := { page_created := some ⟨1704067200000, none⟩ }

/-- Claim C2 counterexample: for this merged issue record, `page_created` is
the semantic-export instant 2024-05-01 even though the supplied block-tree
page-creation candidate 2024-01-01 is strictly earlier, so `page_created` is
neither the minimum over the available candidates nor below every candidate
— refuting the claim for merged issue records. -/
theorem claim_C2_counterexample :
    (mergeIss issC2 roamIssC2).page_created = some ⟨1714521600000, none⟩
    ∧ normalize_datetime roamIssC2.page_created = some ⟨1704067200000, none⟩
    ∧ ¬ ((1714521600000 : Int) ≤ 1704067200000) := by
  refine ⟨rfl, rfl, by decide⟩

/-- Experiment for the C2 witness: semantic-export `created` parses to
2024-05-01, block-tree page creation 2024-01-01, no earliest-block value. -/
def expC2W : JExp :=
  { uid := "e2", title := "@a/w", created := .valid ⟨1714521600000, none⟩ }

/-- Block-tree facts for the C2 witness. -/
def roamC2W : RoamExp := { page_created := some ⟨1704067200000, none⟩ }

/-- Witness for the amended C2: on a concrete experiment with candidates
2024-05-01 (semantic export) and 2024-01-01 (block tree), the merged
`page_created` is the earlier candidate and is below the later one. -/
theorem claim_C2_witness :
    isCandidate expC2W roamC2W ⟨1704067200000, none⟩
    ∧ (1704067200000 : Int) ≤ 1714521600000 := by
  have h := (claim_C2_amended.1 expC2W roamC2W).1 ⟨1704067200000, none⟩ rfl
  exact ⟨h.1, h.2 ⟨1714521600000, none⟩ (Or.inl rfl)⟩

/-! ### Claim C3: claim-field resolution and claim types -/

/-- Claim C3: for every merged experiment record the claim fields are resolved
by exactly one of three branches.  (1) When the block-tree export has a
Claimed By block for this title — the extractor returned `(person, timestamp)`,
with `person` non-empty as the extraction regex guarantees — that pair
overrides the semantic-export `claimed_by` and `claim_type = "explicit"`.
(2) Otherwise, when no claim field exists at all (the semantic-export
`claimed_by` is falsy) but the block-tree export shows an experimental log
with at least one entry and the semantic-export `creator` is truthy, the
experiment is inferred as self-claimed: `claimed_by = creator`,
`claimed_by_timestamp` is the first log entry, `claim_type = "inferred"`, and
`issue_created_by` is backfilled to `creator` when it was otherwise empty.
(3) Otherwise `claim_type` is null.  The record's single `claim_type` field
makes the three outcomes mutually exclusive. -/
theorem claim_C3 :
    ∀ (exp : JExp) (roam_data : RoamExp),
      (∀ p t, roam_data.claimed_by = some (p, t) → p ≠ "" →
        (mergeExperiment exp roam_data).claimed_by = some p
        ∧ (mergeExperiment exp roam_data).claimed_by_timestamp = normalize_datetime t
        ∧ (mergeExperiment exp roam_data).claim_type = some "explicit")
      ∧ (roam_data.claimed_by = none → truthyS exp.claimed_by = false →
          roam_data.has_experimental_log = true → 0 < roam_data.log_entry_count →
          truthyS exp.creator = true →
          (mergeExperiment exp roam_data).claimed_by = exp.creator
          ∧ (mergeExperiment exp roam_data).claimed_by_timestamp
              = normalize_datetime roam_data.first_log_entry
          ∧ (mergeExperiment exp roam_data).claim_type = some "inferred"
          ∧ (truthyS (personOverride roam_data.issue_created_by exp.issue_created_by) = false →
              (mergeExperiment exp roam_data).issue_created_by = exp.creator))
      ∧ (roam_data.claimed_by = none →
          ¬ (truthyS exp.claimed_by = false ∧ roam_data.has_experimental_log = true
             ∧ 0 < roam_data.log_entry_count ∧ truthyS exp.creator = true) →
          (mergeExperiment exp roam_data).claim_type = none) := by
  intro exp roam_data
  refine ⟨?_, ?_, ?_⟩
  · intro p t hcb hp
    have htr : truthyS (some p) = true := by simp [truthyS, hp]
    simp only [mergeExperiment, hcb, htr]
    simp
  · intro hcb hjcb hlog hcount hcr
    have hinfer : (!truthyS exp.claimed_by && roam_data.has_experimental_log
        && decide (0 < roam_data.log_entry_count) && truthyS exp.creator) = true := by
      simp [hjcb, hlog, hcount, hcr]
    simp only [mergeExperiment, hcb]
    simp only [hinfer]
    refine ⟨by simp, ?_, by simp, ?_⟩
    · cases hfl : roam_data.first_log_entry with
      | none => simp [normalize_datetime]
      | some d => simp
    · intro hic
      simp [hic]
  · intro hcb hncond
    have hinfer : (!truthyS exp.claimed_by && roam_data.has_experimental_log
        && decide (0 < roam_data.log_entry_count) && truthyS exp.creator) = false := by
      by_contra hne
      have : (!truthyS exp.claimed_by && roam_data.has_experimental_log
          && decide (0 < roam_data.log_entry_count) && truthyS exp.creator) = true := by
        revert hne
        cases (!truthyS exp.claimed_by && roam_data.has_experimental_log
          && decide (0 < roam_data.log_entry_count) && truthyS exp.creator) <;> simp
      simp only [Bool.and_eq_true, Bool.not_eq_true', decide_eq_true_eq] at this
      exact hncond ⟨this.1.1.1, this.1.1.2, this.1.2, this.2⟩
    simp only [mergeExperiment, hcb]
    simp [hinfer]

/-- Scenario for the C3 witness (spec example 1): `creator = "X"`, no
Claimed By field anywhere, experimental log with 2 entries, first entry
2024-04-05T00:00:00 UTC (1712275200000 ms). -/
def expC3W : JExp := { uid := "e3", title := "@a/scenario one", creator := some "X" }

/-- Block-tree facts for the C3 witness. -/
def roamC3W : RoamExp :=
  { has_experimental_log := true
    first_log_entry := some ⟨1712275200000, none⟩
    log_entry_count := 2 }

/-- Witness for C3, instantiating the inference branch on spec scenario 1:
the merged record has `claim_type = "inferred"`, `claimed_by = "X"`,
`claimed_by_timestamp = 2024-04-05`, and `issue_created_by` backfilled
to `"X"`. -/
theorem claim_C3_witness :
    (mergeExperiment expC3W roamC3W).claimed_by = some "X"
    ∧ (mergeExperiment expC3W roamC3W).claimed_by_timestamp = some ⟨1712275200000, none⟩
    ∧ (mergeExperiment expC3W roamC3W).claim_type = some "inferred"
    ∧ (mergeExperiment expC3W roamC3W).issue_created_by = some "X" := by
  have h := (claim_C3 expC3W roamC3W).2.1 rfl rfl rfl (by decide) rfl
  exact ⟨h.1, h.2.1, h.2.2.1, h.2.2.2 rfl⟩

/-! ### Rounding helpers (Python round / format, round-half-even) -/

/-- Round-half-even to the nearest integer, as Python `round` does. -/
def rhe (q : Rat) : Int :=
  if q - ⌊q⌋ < 1/2 then ⌊q⌋
  else if 1/2 < q - ⌊q⌋ then ⌊q⌋ + 1
  else if ⌊q⌋ % 2 = 0 then ⌊q⌋ else ⌊q⌋ + 1

/-- Python `round(q, 1)`. -/
def roundTo1 (q : Rat) : Rat := (rhe (q * 10) : Rat) / 10

/-- Python `round(q, 3)`. -/
def roundTo3 (q : Rat) : Rat := (rhe (q * 1000) : Rat) / 1000

theorem rhe_cases (q : Rat) : rhe q = ⌊q⌋ ∨ rhe q = ⌊q⌋ + 1 := by
  unfold rhe
  split
  · exact Or.inl rfl
  · split
    · exact Or.inr rfl
    · split
      · exact Or.inl rfl
      · exact Or.inr rfl

theorem rhe_nonneg (q : Rat) (h : 0 ≤ q) : 0 ≤ rhe q := by
  have hf : (0 : Int) ≤ ⌊q⌋ := by
    rw [Int.le_floor]
    exact_mod_cast h
  rcases rhe_cases q with h2 | h2 <;> omega

theorem rhe_le (q : Rat) (n : Int) (h : q ≤ n) : rhe q ≤ n := by
  rcases rhe_cases q with h2 | h2
  · rw [h2]
    have := Int.floor_le_floor h
    simpa using this
  · rw [h2]
    by_cases heq : q = (⌊q⌋ : Rat)
    · -- if q is an integer, the halfway branch cannot fire
      exfalso
      unfold rhe at h2
      have hz : q - (⌊q⌋ : Rat) = 0 := by rw [← heq]; ring
      simp only [hz] at h2
      norm_num at h2
    · have hlt : (⌊q⌋ : Rat) < q := lt_of_le_of_ne (Int.floor_le q) (by
        intro hh
        exact heq hh.symm)
      have : ⌊q⌋ < n := by
        by_contra hge
        push_neg at hge
        have h3 : (n : Rat) ≤ (⌊q⌋ : Rat) := by exact_mod_cast hge
        exact lt_irrefl q (lt_of_le_of_lt (h.trans h3) hlt)
      omega

/-! ### Claim C5: conversion rate -/

/-- The result dict of `calculate_conversion_rate`
(`calculate_metrics.py` lines 263-278). -/
structure ConversionRate where
  conversion_rate_percent : Rat
  total_claimed : Nat
  claimed_experiments : Nat
  explicit_claims : Nat
  inferred_claims : Nat
  iss_with_activity : Nat
  unclaimed_iss : Nat
  total_issues : Nat
  cross_person_claims : Nat
  self_claims : Nat
  unknown_claim_type : Int
  claimed_experiment_list : List MergedExp
  cross_person_claim_list : List MergedExp
  self_claim_list : List MergedExp
deriving Repr

/-- `calculate_conversion_rate` (`calculate_metrics.py` lines 225-278). -/
def calculate_conversion_rate (experiments : List MergedExp)
    (iss_nodes : List MergedIss) : ConversionRate :=
  let claimed_experiments := experiments.filter fun e => truthyS e.claimed_by
  let explicit_claims := claimed_experiments.filter fun e =>
    e.claim_type == some "explicit"
  let inferred_claims := claimed_experiments.filter fun e =>
    e.claim_type == some "inferred"
  let iss_with_log := iss_nodes.filter fun i => i.has_experimental_log
  let unclaimed_iss := iss_nodes.filter fun i => !i.has_experimental_log
  let total_claimed := claimed_experiments.length + iss_with_log.length
  let total_issues := total_claimed + unclaimed_iss.length
  let conversion_rate : Rat :=
    if 0 < total_issues then (total_claimed : Rat) / (total_issues : Rat) * 100 else 0
  let cross_person_claims := claimed_experiments.filter fun e =>
    truthyS e.issue_created_by && truthyS e.claimed_by
      && e.issue_created_by != e.claimed_by
  let self_claims := claimed_experiments.filter fun e =>
    truthyS e.issue_created_by && truthyS e.claimed_by
      && e.issue_created_by == e.claimed_by
  { conversion_rate_percent := roundTo1 conversion_rate
    total_claimed := total_claimed
    claimed_experiments := claimed_experiments.length
    explicit_claims := explicit_claims.length
    inferred_claims := inferred_claims.length
    iss_with_activity := iss_with_log.length
    unclaimed_iss := unclaimed_iss.length
    total_issues := total_issues
    cross_person_claims := cross_person_claims.length
    self_claims := self_claims.length
    unknown_claim_type := (claimed_experiments.length : Int)
      - cross_person_claims.length - self_claims.length
    claimed_experiment_list := claimed_experiments
    cross_person_claim_list := cross_person_claims
    self_claim_list := self_claims }

/-- Claim C5 (amended): the conversion-rate numerator is the number of
experiments with a truthy `claimed_by` — whatever their `claim_type`,
including records whose claim came only from the semantic export and carry a
null `claim_type` — plus the issues with an experimental log; the denominator
adds the unclaimed issues.  The percentage is rounded to one decimal, is
exactly 0 when the denominator is 0, lies in [0, 100], and
`total_claimed + unclaimed_iss = total_issues`. -/
theorem claim_C5_amended :
    ∀ (experiments : List MergedExp) (iss_nodes : List MergedIss),
      (calculate_conversion_rate experiments iss_nodes).total_claimed =
        (experiments.filter fun e => truthyS e.claimed_by).length
          + (iss_nodes.filter fun i => i.has_experimental_log).length
      ∧ (calculate_conversion_rate experiments iss_nodes).conversion_rate_percent =
          (if 0 < (calculate_conversion_rate experiments iss_nodes).total_issues then
            roundTo1 (((calculate_conversion_rate experiments iss_nodes).total_claimed : Rat)
              / ((calculate_conversion_rate experiments iss_nodes).total_issues : Rat) * 100)
          else 0)
      ∧ ((calculate_conversion_rate experiments iss_nodes).total_issues = 0 →
          (calculate_conversion_rate experiments iss_nodes).conversion_rate_percent = 0)
      ∧ 0 ≤ (calculate_conversion_rate experiments iss_nodes).conversion_rate_percent
      ∧ (calculate_conversion_rate experiments iss_nodes).conversion_rate_percent ≤ 100
      ∧ (calculate_conversion_rate experiments iss_nodes).total_claimed
          + (calculate_conversion_rate experiments iss_nodes).unclaimed_iss =
        (calculate_conversion_rate experiments iss_nodes).total_issues := by
  intro experiments iss_nodes
  set tc := (experiments.filter fun e => truthyS e.claimed_by).length
    + (iss_nodes.filter fun i => i.has_experimental_log).length with htc
  set ti := tc + (iss_nodes.filter fun i => !i.has_experimental_log).length with hti
  have h1 : (calculate_conversion_rate experiments iss_nodes).total_claimed = tc := rfl
  have h2 : (calculate_conversion_rate experiments iss_nodes).total_issues = ti := rfl
  have h3 : (calculate_conversion_rate experiments iss_nodes).unclaimed_iss =
      (iss_nodes.filter fun i => !i.has_experimental_log).length := rfl
  have h4 : (calculate_conversion_rate experiments iss_nodes).conversion_rate_percent =
      roundTo1 (if 0 < ti then (tc : Rat) / (ti : Rat) * 100 else 0) := rfl
  have hrate_nonneg : (0 : Rat) ≤ (if 0 < ti then (tc : Rat) / (ti : Rat) * 100 else 0) := by
    split
    · positivity
    · exact le_rfl
  have hrate_le : (if 0 < ti then (tc : Rat) / (ti : Rat) * 100 else 0) ≤ 100 := by
    split
    · rename_i hpos
      have htile : (tc : Rat) ≤ (ti : Rat) := by
        have : tc ≤ ti := by omega
        exact_mod_cast this
      have htipos : (0 : Rat) < (ti : Rat) := by exact_mod_cast hpos
      rw [div_mul_eq_mul_div, div_le_iff₀ htipos]
      calc (tc : Rat) * 100 ≤ (ti : Rat) * 100 := by nlinarith
        _ = 100 * (ti : Rat) := by ring
    · norm_num
  have hr1_nonneg : (0 : Rat) ≤ roundTo1 (if 0 < ti then (tc : Rat) / (ti : Rat) * 100 else 0) := by
    unfold roundTo1
    have := rhe_nonneg ((if 0 < ti then (tc : Rat) / (ti : Rat) * 100 else 0) * 10)
      (by nlinarith)
    positivity
  have hr1_le : roundTo1 (if 0 < ti then (tc : Rat) / (ti : Rat) * 100 else 0) ≤ 100 := by
    unfold roundTo1
    have hb := rhe_le ((if 0 < ti then (tc : Rat) / (ti : Rat) * 100 else 0) * 10) 1000
      (by nlinarith)
    rw [div_le_iff₀ (by norm_num : (0:Rat) < 10)]
    calc ((rhe ((if 0 < ti then (tc : Rat) / (ti : Rat) * 100 else 0) * 10) : Int) : Rat)
        ≤ ((1000 : Int) : Rat) := by exact_mod_cast hb
      _ = 100 * 10 := by norm_num
  refine ⟨h1, ?_, ?_, ?_, ?_, ?_⟩
  · rw [h4, h1, h2]
    split
    · rfl
    · norm_num [roundTo1, rhe]
  · intro hz
    rw [h2] at hz
    rw [h4, hz]
    norm_num [roundTo1, rhe]
  · rw [h4]; exact hr1_nonneg
  · rw [h4]; exact hr1_le
  · rw [h1, h3, h2, hti]

/-- Experiment for the C5 counterexample: the semantic export carries a
`claimed_by` but the block-tree export has nothing, so the merged record has
a truthy `claimed_by` and a null `claim_type`. -/
def expC5 : JExp := { uid := "e5", title := "@a/jsonld only claim", claimed_by := some "Alice" }

/-- Claim C5 counterexample: with one merged experiment whose claim came only
from the semantic export (`claim_type` null) and no issues, the code reports
a conversion rate of 100, while the claimed formula
(explicit + inferred + issues-with-activity) / (that sum + unclaimed) has
numerator and denominator 0 and the claim then requires exactly 0. -/
theorem claim_C5_counterexample :
    (calculate_conversion_rate (merge_experiment_data [expC5] (fun _ => none)) []).conversion_rate_percent = 100
    ∧ (calculate_conversion_rate (merge_experiment_data [expC5] (fun _ => none)) []).explicit_claims = 0
    ∧ (calculate_conversion_rate (merge_experiment_data [expC5] (fun _ => none)) []).inferred_claims = 0
    ∧ (calculate_conversion_rate (merge_experiment_data [expC5] (fun _ => none)) []).iss_with_activity = 0
    ∧ (calculate_conversion_rate (merge_experiment_data [expC5] (fun _ => none)) []).unclaimed_iss = 0
    ∧ (100 : Rat) ≠ 0 := by
  refine ⟨?_, rfl, rfl, rfl, rfl, by norm_num⟩
  show roundTo1 ((1 : Rat) / (1 : Rat) * 100) = 100
  norm_num [roundTo1, rhe]

/-- Witness for the amended C5 on a concrete population: one explicitly
claimed experiment and one unclaimed issue give a 50.0 percent rate within
bounds and a consistent total. -/
theorem claim_C5_witness :
    (calculate_conversion_rate
        [mergeExperiment expC5 RoamExp.empty]
        [mergeIss { uid := "i5", title := "[[ISS]] open" } RoamIss.empty]).total_claimed
      = 1
    ∧ (0 : Rat) ≤ (calculate_conversion_rate
        [mergeExperiment expC5 RoamExp.empty]
        [mergeIss { uid := "i5", title := "[[ISS]] open" } RoamIss.empty]).conversion_rate_percent
    ∧ (calculate_conversion_rate
        [mergeExperiment expC5 RoamExp.empty]
        [mergeIss { uid := "i5", title := "[[ISS]] open" } RoamIss.empty]).conversion_rate_percent ≤ 100
    ∧ (calculate_conversion_rate
        [mergeExperiment expC5 RoamExp.empty]
        [mergeIss { uid := "i5", title := "[[ISS]] open" } RoamIss.empty]).total_claimed
        + (calculate_conversion_rate
        [mergeExperiment expC5 RoamExp.empty]
        [mergeIss { uid := "i5", title := "[[ISS]] open" } RoamIss.empty]).unclaimed_iss
      = (calculate_conversion_rate
        [mergeExperiment expC5 RoamExp.empty]
        [mergeIss { uid := "i5", title := "[[ISS]] open" } RoamIss.empty]).total_issues
    ∧ (calculate_conversion_rate [] []).conversion_rate_percent = 0 := by
  have h := claim_C5_amended [mergeExperiment expC5 RoamExp.empty]
    [mergeIss { uid := "i5", title := "[[ISS]] open" } RoamIss.empty]
  exact ⟨h.1, h.2.2.2.1, h.2.2.2.2.1, h.2.2.2.2.2,
    (claim_C5_amended [] []).2.2.1 rfl⟩

/-! ### Claim C4: time-to-claim -/

/-- One entry of the `times_to_claim` list
(`calculate_metrics.py` lines 299-306). -/
structure TTCDetail where
  title : String
  issue_created_by : Option String
  claimed_by : Option String
  page_created : PyDateTime
  claimed_timestamp : PyDateTime
  days_to_claim : Int
deriving DecidableEq, Repr

/-- The loop body of `calculate_time_to_claim` (lines 290-306): a record
contributes iff its `claimed_by` is truthy and both instants are present;
`days_to_claim` is the `timedelta.days` of claim minus page creation. -/
def ttcEntry (exp : MergedExp) : Option TTCDetail :=
  if truthyS exp.claimed_by then
    match exp.page_created, exp.claimed_by_timestamp with
    | some pc, some ts =>
      some { title := exp.title
             issue_created_by := exp.issue_created_by
             claimed_by := exp.claimed_by
             page_created := pc
             claimed_timestamp := ts
             days_to_claim := daysBetween ts pc }
    | _, _ => none
  else none

/-- Python `sorted` over integers. -/
def sortInts (l : List Int) : List Int := l.mergeSort fun a b => a ≤ b

/-- Python `min` over a non-empty integer list. -/
def intListMin : List Int → Option Int
  | [] => none
  | x :: rest => some (rest.foldl (fun m y => if y < m then y else m) x)

/-- Python `max` over a non-empty integer list. -/
def intListMax : List Int → Option Int
  | [] => none
  | x :: rest => some (rest.foldl (fun m y => if m < y then y else m) x)

/-- The result dict of `calculate_time_to_claim` (lines 308-328). -/
structure TTC where
  count : Nat
  avg_days : Option Rat
  min_days : Option Int
  max_days : Option Int
  median_days : Option Int
  details : List TTCDetail
deriving Repr

/-- `calculate_time_to_claim` (`calculate_metrics.py` lines 281-328). -/
def calculate_time_to_claim (experiments : List MergedExp) : TTC :=
  let times_to_claim := experiments.filterMap ttcEntry
  if times_to_claim = [] then
    { count := 0, avg_days := none, min_days := none, max_days := none,
      median_days := none, details := [] }
  else
    let days_list := times_to_claim.map fun t => t.days_to_claim
    let days_list_sorted := sortInts days_list
    { count := times_to_claim.length
      avg_days := some (roundTo1 (((days_list.foldl (· + ·) 0 : Int) : Rat)
        / (days_list.length : Rat)))
      min_days := intListMin days_list
      max_days := intListMax days_list
      median_days := days_list_sorted.get? (days_list_sorted.length / 2)
      details := times_to_claim.mergeSort fun a b => a.days_to_claim ≤ b.days_to_claim }

/-- The "lower of the two middle values" of a list, the convention the claim
states in words: the element at index (n - 1) / 2 of the sorted list. -/
def lowerMiddle (l : List Int) : Option Int :=
  (sortInts l).get? ((l.length - 1) / 2)

/-- Claim C4 (amended): the time-to-claim metric is computed exactly over the
records having a truthy claim, a page-creation instant, and a claim instant;
for each, `days_to_claim` is the integer-day part (`timedelta.days`) of
claimedAt minus pageCreated; the details are a permutation of those entries;
and `median_days` for an n-element sample is the element at index n / 2 of
the sorted day list — for even n that is the **higher** of the two middle
values, not the lower one. -/
theorem claim_C4_amended :
    ∀ (experiments : List MergedExp),
      (calculate_time_to_claim experiments).count
          = (experiments.filterMap ttcEntry).length
      ∧ (∀ e : MergedExp, (ttcEntry e).isSome ↔
          (truthyS e.claimed_by = true ∧ e.page_created.isSome = true
            ∧ e.claimed_by_timestamp.isSome = true))
      ∧ (∀ e d, ttcEntry e = some d → ∃ pc ts,
          e.page_created = some pc ∧ e.claimed_by_timestamp = some ts
          ∧ d.days_to_claim = (ts.ms - pc.ms).fdiv 86400000)
      ∧ (calculate_time_to_claim experiments).details.Perm
          (experiments.filterMap ttcEntry)
      ∧ (calculate_time_to_claim experiments).median_days =
          (sortInts ((experiments.filterMap ttcEntry).map fun t => t.days_to_claim)).get?
            ((experiments.filterMap ttcEntry).length / 2) := by
  intro experiments
  refine ⟨?_, ?_, ?_, ?_, ?_⟩
  · simp only [calculate_time_to_claim]
    split
    · rename_i hnil
      simp [hnil]
    · rfl
  · intro e
    unfold ttcEntry
    by_cases h : truthyS e.claimed_by
    · cases hpc : e.page_created <;> cases hts : e.claimed_by_timestamp <;>
        simp [h, hpc, hts]
    · simp [h]
  · intro e d hd
    unfold ttcEntry at hd
    by_cases h : truthyS e.claimed_by
    · rw [if_pos h] at hd
      cases hpc : e.page_created with
      | none => rw [hpc] at hd; simp at hd
      | some pc =>
        cases hts : e.claimed_by_timestamp with
        | none => rw [hpc, hts] at hd; simp at hd
        | some ts =>
          rw [hpc, hts] at hd
          simp only [Option.some.injEq] at hd
          exact ⟨pc, ts, rfl, rfl, by rw [← hd]; rfl⟩
    · rw [if_neg h] at hd
      simp at hd
  · simp only [calculate_time_to_claim]
    split
    · rename_i hnil
      simp [hnil]
    · exact List.mergeSort_perm _ _
  · simp only [calculate_time_to_claim]
    split
    · rename_i hnil
      simp [hnil, sortInts]
    · show (sortInts _).get? ((sortInts _).length / 2) = _
      have hlen : (sortInts ((experiments.filterMap ttcEntry).map
          fun t => t.days_to_claim)).length
          = (experiments.filterMap ttcEntry).length := by
        unfold sortInts
        rw [(List.mergeSort_perm _ _).length_eq, List.length_map]
      rw [hlen]

/-- C4 example experiment a: page created 2024-01-01T00:00 UTC, explicit
claim block at 2024-01-01T12:00 UTC (0 whole days later). -/
def expC4a : JExp := { uid := "e4a", title := "@a/quick claim", created := .valid ⟨1704067200000, none⟩ }

/-- Block-tree facts for `expC4a`. -/
def roamC4a : RoamExp := { claimed_by := some ("P", some ⟨1704110400000, none⟩) }

/-- C4 example experiment b (spec scenario 2): page created 2024-01-01,
explicit claim block dated 2024-01-10 by "Y" (9 whole days later). -/
def expC4b : JExp := { uid := "e4b", title := "@a/slow claim", created := .valid ⟨1704067200000, none⟩ }

/-- Block-tree facts for `expC4b`. -/
def roamC4b : RoamExp := { claimed_by := some ("Y", some ⟨1704844800000, none⟩) }

unseal List.merge List.mergeSort in
/-- Claim C4 counterexample: for the two-element sample with day values
0 and 9, the code reports `median_days = 9` — the element at index n / 2 of
the sorted list, which for an even-sized sample is the **higher** of the two
middle values — whereas the lower of the two middle values is 0. -/
theorem claim_C4_counterexample :
    (calculate_time_to_claim [mergeExperiment expC4a roamC4a,
        mergeExperiment expC4b roamC4b]).median_days = some 9
    ∧ lowerMiddle ((calculate_time_to_claim [mergeExperiment expC4a roamC4a,
        mergeExperiment expC4b roamC4b]).details.map fun t => t.days_to_claim) = some 0
    ∧ some (9 : Int) ≠ some 0 := by
  refine ⟨rfl, rfl, by decide⟩

unseal List.merge List.mergeSort in
/-- Witness for the amended C4 on spec scenario 2: the experiment claimed
9 days after page creation is included and yields `median_days = 9`. -/
theorem claim_C4_witness :
    (calculate_time_to_claim [mergeExperiment expC4b roamC4b]).median_days = some 9
    ∧ (ttcEntry (mergeExperiment expC4b roamC4b)).isSome = true := by
  have h := claim_C4_amended [mergeExperiment expC4b roamC4b]
  constructor
  · rw [h.2.2.2.2]
    rfl
  · exact (h.2.1 (mergeExperiment expC4b roamC4b)).mpr ⟨rfl, rfl, rfl⟩

/-! ### Claim C6: result linker -/

/-- Python `str.lower()` (and Lean `String.toLower`), implemented over the
character list so that the kernel can evaluate it. -/
def pyLower (s : String) : String := String.mk (s.data.map Char.toLower)

/-- Scanner for `str.replace`: while the first argument is positive, that
many characters (the tail of a replaced match) are still to be skipped. -/
def listReplaceAux (pat rep : List Char) : Nat → List Char → List Char
  | _, [] => []
  | 0, c :: rest =>
    if pat ≠ [] ∧ pat.isPrefixOf (c :: rest) then
      rep ++ listReplaceAux pat rep (pat.length - 1) rest
    else c :: listReplaceAux pat rep 0 rest
  | k+1, _ :: rest => listReplaceAux pat rep k rest

/-- Python `str.replace(pat, rep)`: replace non-overlapping occurrences left
to right (callers only use non-empty patterns; for an empty pattern this
returns the input unchanged). -/
def listReplace (pat rep : List Char) (l : List Char) : List Char :=
  listReplaceAux pat rep 0 l

/-- Python `str.replace` on strings. -/
def pyReplace (s pat rep : String) : String :=
  String.mk (listReplace pat.data rep.data s.data)

/-- Python `str.startswith` (and Lean `String.startsWith`). -/
def pyStartsWith (s pre : String) : Bool := pre.data.isPrefixOf s.data

/-- Substring test on character lists (Python `needle in hay`). -/
def listContainsSub (needle : List Char) : List Char → Bool
  | [] => needle.isPrefixOf ([] : List Char)
  | c :: rest => needle.isPrefixOf (c :: rest) || listContainsSub needle rest

/-- Python `needle in hay` for strings. -/
def strContains (hay needle : String) : Bool := listContainsSub needle.data hay.data

/-- A semantic-export RES node as the linker sees it. -/
structure RNode where
  uid : String
  title : String
  created : CreatedField
  creator : Option String := none
  made_by : Option String := none
  author : Option String := none
deriving DecidableEq, Repr

/-- One linked-result entry appended by `_find_linked_res_nodes`
(`calculate_metrics.py` lines 388-397): it always carries a successfully
parsed, normalized creation instant. -/
structure LinkedRes where
  uid : String
  title : String
  created : PyDateTime
  creator : Option String
  made_by : Option String
  author : Option String
  primary_contributor : Option String
  attribution_method : Option String
deriving DecidableEq, Repr

/-- `_res_primary_contributor` (lines 367-377): made_by, then author, then
creator. -/
def res_primary_contributor (res : RNode) : Option String × Option String :=
  if truthyS res.made_by then (res.made_by, some "made_by")
  else if truthyS res.author then (res.author, some "author")
  else if truthyS res.creator then (res.creator, some "creator")
  else (none, none)

/-- The linked-result record built from a RES node and its parsed creation
instant. -/
def mkLinked (res : RNode) (c : PyDateTime) : LinkedRes :=
  { uid := res.uid
    title := res.title
    created := c
    creator := res.creator
    made_by := res.made_by
    author := res.author
    primary_contributor := (res_primary_contributor res).1
    attribution_method := (res_primary_contributor res).2 }

/-- A relation-instance edge from the semantic export (missing keys model as
the empty string, as `rel.get('source', '')` does). -/
structure RelInstance where
  source : String
  destination : String
deriving DecidableEq, Repr

/-- `'pages:'` prefix stripping via `str.replace` (removes every
occurrence). -/
def stripPages (s : String) : String := pyReplace s "pages:" ""

/-- The RES uids related to `uid` according to `_build_relation_map`
(lines 331-350): for each edge, when the destination is a RES node the
source maps to it, and when the source is a RES node the destination maps to
it.  The Python value is a set; it is modelled as the duplicate-free list of
uids in insertion order (the claims proved below do not depend on the
iteration order of the set). -/
def relationTargets (relation_instances : List RelInstance)
    (res_uid_set : List String) (uid : String) : List String :=
  relation_instances.foldl
    (fun acc rel =>
      let src := stripPages rel.source
      let dst := stripPages rel.destination
      let acc1 := if res_uid_set.contains dst && src == uid && !acc.contains dst
        then acc ++ [dst] else acc
      if res_uid_set.contains src && dst == uid && !acc1.contains src
        then acc1 ++ [src] else acc1)
    []

/-- `res_by_uid` dict lookup (a dict comprehension keeps the last binding for
a duplicated uid). -/
def resByUid (res_nodes : List RNode) (u : String) : Option RNode :=
  res_nodes.reverse.find? fun r => r.uid == u

/-- One iteration of tier 1 of `_find_linked_res_nodes` (lines 381-398):
skip unknown uids, already-seen uids, and RES nodes without a parseable
creation date. -/
def tier1Step (res_nodes : List RNode) (st : List LinkedRes × List String)
    (res_uid : String) : List LinkedRes × List String :=
  match resByUid res_nodes res_uid with
  | some res =>
    if st.2.contains res_uid then st
    else
      match normalize_datetime (parse_date res.created) with
      | some c => (st.1 ++ [mkLinked res c], st.2 ++ [res_uid])
      | none => st
  | none => st

/-- Tier 1 of `_find_linked_res_nodes` (lines 379-398): iterate the
relation-mapped uids. -/
def tier1 (res_nodes : List RNode) (rel_uids : List String) :
    List LinkedRes × List String :=
  rel_uids.foldl (tier1Step res_nodes) ([], [])

/-- One iteration of the shared loop of tiers 2 and 3 (lines 406-424 and
435-454): skip seen uids, keep a node when its title satisfies the tier
condition and its creation date parses. -/
def tierScanStep (cond : RNode → Bool) (st : List LinkedRes × List String)
    (res : RNode) : List LinkedRes × List String :=
  if st.2.contains res.uid then st
  else if cond res then
    match normalize_datetime (parse_date res.created) with
    | some c => (st.1 ++ [mkLinked res c], st.2 ++ [res.uid])
    | none => st
  else st

/-- The shared loop of tiers 2 and 3: scan the RES nodes in order. -/
def tierScan (cond : RNode → Bool) (res_nodes : List RNode)
    (st0 : List LinkedRes × List String) : List LinkedRes × List String :=
  res_nodes.foldl (tierScanStep cond) st0

/-- The tier-3 short name (lines 428-431): remove every `'@'` from the
title, lowercase, and split on the **first** `'/'` keeping the remainder. -/
def expShortName (title : String) : String :=
  let exp_name := pyLower (pyReplace title "@" "")
  if strContains exp_name "/" then
    String.mk ((exp_name.data.dropWhile fun c => c ≠ '/').drop 1)
  else exp_name

/-- The tier-2 backreference string (line 405). -/
def expRefOf (title : String) : String := pyLower ("[[" ++ title ++ "]]")

/-- `_find_linked_res_nodes` (`calculate_metrics.py` lines 353-456):
three-tier cascade, each later tier attempted only when the accumulated list
is still empty. -/
def find_linked_res_nodes (exp : MergedExp) (res_nodes : List RNode)
    (relation_instances : List RelInstance) : List LinkedRes :=
  let res_uid_set := res_nodes.map fun r => r.uid
  let t1 := tier1 res_nodes (relationTargets relation_instances res_uid_set exp.uid)
  if t1.1 ≠ [] then t1.1
  else
    let t2 := tierScan (fun res => strContains (pyLower res.title) (expRefOf exp.title))
      res_nodes t1
    if t2.1 ≠ [] then t2.1
    else
      let short := expShortName exp.title
      if 20 ≤ short.length then
        (tierScan (fun res => strContains (pyLower res.title) short) res_nodes t2).1
      else t2.1


/-- Invariant of the linker loops: collected uids are duplicate-free and all
recorded in the seen list. -/
def InvLS (st : List LinkedRes × List String) : Prop :=
  (st.1.map fun r => r.uid).Nodup ∧ ∀ r ∈ st.1, st.2.contains r.uid = true

theorem InvLS_append {st : List LinkedRes × List String} {r : LinkedRes} {u : String}
    (h : InvLS st) (hu : st.2.contains u = false) (hr : r.uid = u) :
    InvLS (st.1 ++ [r], st.2 ++ [u]) := by
  obtain ⟨hnd, hct⟩ := h
  have hnotmem : u ∉ st.1.map fun x => x.uid := by
    intro hmem
    obtain ⟨x, hx, hxu⟩ := List.mem_map.mp hmem
    have h2 := hct x hx
    rw [hxu] at h2
    rw [h2] at hu
    exact Bool.true_eq_false.mp hu
  constructor
  · rw [List.map_append]
    simp only [List.map_cons, List.map_nil]
    rw [hr]
    exact List.Nodup.append hnd (List.nodup_singleton u) (by
      intro a ha hb
      simp at hb
      subst hb
      exact hnotmem ha)
  · intro x hx
    rcases List.mem_append.mp hx with hx | hx
    · have := hct x hx
      rw [List.elem_iff] at this ⊢
      exact List.mem_append_left _ this
    · simp at hx
      subst hx
      rw [List.elem_iff, hr]
      exact List.mem_append_right _ (by simp)

theorem tierScanStep_cases (cond : RNode → Bool) (st : List LinkedRes × List String)
    (res : RNode) :
    tierScanStep cond st res = st
    ∨ (st.2.contains res.uid = false ∧ cond res = true
       ∧ ∃ c, normalize_datetime (parse_date res.created) = some c
         ∧ tierScanStep cond st res = (st.1 ++ [mkLinked res c], st.2 ++ [res.uid])) := by
  unfold tierScanStep
  split
  · exact Or.inl rfl
  · rename_i h1
    split
    · rename_i h2
      split
      · rename_i c h3
        exact Or.inr ⟨Bool.not_eq_true _ |>.mp h1, h2, c, h3, rfl⟩
      · exact Or.inl rfl
    · exact Or.inl rfl

theorem resByUid_mem {res_nodes : List RNode} {u : String} {res : RNode}
    (h : resByUid res_nodes u = some res) : res ∈ res_nodes ∧ res.uid = u := by
  unfold resByUid at h
  constructor
  · exact List.mem_reverse.mp (List.mem_of_find?_eq_some h)
  · have := List.find?_some h
    exact beq_iff_eq.mp this

theorem tier1Step_cases (res_nodes : List RNode) (st : List LinkedRes × List String)
    (u : String) :
    tier1Step res_nodes st u = st
    ∨ (∃ res, res ∈ res_nodes ∧ res.uid = u ∧ st.2.contains u = false
       ∧ ∃ c, normalize_datetime (parse_date res.created) = some c
         ∧ tier1Step res_nodes st u = (st.1 ++ [mkLinked res c], st.2 ++ [u])) := by
  unfold tier1Step
  split
  · rename_i res hres
    split
    · exact Or.inl rfl
    · rename_i h1
      split
      · rename_i c h3
        obtain ⟨hmem, huid⟩ := resByUid_mem hres
        exact Or.inr ⟨res, hmem, huid, Bool.not_eq_true _ |>.mp h1, c, h3, rfl⟩
      · exact Or.inl rfl
  · exact Or.inl rfl

theorem tierScan_spec (cond : RNode → Bool) (res_nodes : List RNode) :
    ∀ st0 : List LinkedRes × List String, InvLS st0 →
      InvLS (tierScan cond res_nodes st0)
      ∧ ∀ r ∈ (tierScan cond res_nodes st0).1,
          r ∈ st0.1 ∨ (∃ res ∈ res_nodes, cond res = true
            ∧ normalize_datetime (parse_date res.created) = some r.created
            ∧ r = mkLinked res r.created) := by
  induction res_nodes with
  | nil =>
    intro st0 h0
    exact ⟨h0, fun r hr => Or.inl hr⟩
  | cons res rest ih =>
    intro st0 h0
    have hfold : tierScan cond (res :: rest) st0
        = tierScan cond rest (tierScanStep cond st0 res) := rfl
    rcases tierScanStep_cases cond st0 res with hstep | ⟨hct, hcond, c, hc, hstep⟩
    · rw [hfold, hstep]
      obtain ⟨hinv, hprov⟩ := ih st0 h0
      refine ⟨hinv, fun r hr => ?_⟩
      rcases hprov r hr with h | ⟨res2, hm, hx⟩
      · exact Or.inl h
      · exact Or.inr ⟨res2, List.mem_cons_of_mem _ hm, hx⟩
    · rw [hfold, hstep]
      have h1 : InvLS (st0.1 ++ [mkLinked res c], st0.2 ++ [res.uid]) :=
        InvLS_append h0 hct rfl
      obtain ⟨hinv, hprov⟩ := ih _ h1
      refine ⟨hinv, fun r hr => ?_⟩
      rcases hprov r hr with h | ⟨res2, hm, hx⟩
      · rcases List.mem_append.mp h with h | h
        · exact Or.inl h
        · simp only [List.mem_singleton] at h
          subst h
          refine Or.inr ⟨res, List.mem_cons_self _ _, hcond, ?_, ?_⟩
          · show normalize_datetime (parse_date res.created) = some (mkLinked res c).created
            rw [hc]
            rfl
          · rfl
      · exact Or.inr ⟨res2, List.mem_cons_of_mem _ hm, hx⟩

theorem tier1_spec (res_nodes : List RNode) (rel_uids : List String) :
    InvLS (tier1 res_nodes rel_uids)
    ∧ ∀ r ∈ (tier1 res_nodes rel_uids).1,
        ∃ res ∈ res_nodes, normalize_datetime (parse_date res.created) = some r.created
          ∧ r = mkLinked res r.created := by
  have main : ∀ (uids : List String) (st0 : List LinkedRes × List String), InvLS st0 →
      InvLS (uids.foldl (tier1Step res_nodes) st0)
      ∧ ∀ r ∈ (uids.foldl (tier1Step res_nodes) st0).1,
          r ∈ st0.1 ∨ ∃ res ∈ res_nodes,
            normalize_datetime (parse_date res.created) = some r.created
            ∧ r = mkLinked res r.created := by
    intro uids
    induction uids with
    | nil => intro st0 h0; exact ⟨h0, fun r hr => Or.inl hr⟩
    | cons u rest ih =>
      intro st0 h0
      have hfold : (u :: rest).foldl (tier1Step res_nodes) st0
          = rest.foldl (tier1Step res_nodes) (tier1Step res_nodes st0 u) := rfl
      rcases tier1Step_cases res_nodes st0 u with hstep | ⟨res, hmem, huid, hct, c, hc, hstep⟩
      · rw [hfold, hstep]
        exact ih st0 h0
      · rw [hfold, hstep]
        have h1 : InvLS (st0.1 ++ [mkLinked res c], st0.2 ++ [u]) :=
          InvLS_append h0 hct huid
        obtain ⟨hinv, hprov⟩ := ih _ h1
        refine ⟨hinv, fun r hr => ?_⟩
        rcases hprov r hr with h | h
        · rcases List.mem_append.mp h with h | h
          · exact Or.inl h
          · simp only [List.mem_singleton] at h
            subst h
            refine Or.inr ⟨res, hmem, ?_, rfl⟩
            show normalize_datetime (parse_date res.created) = some (mkLinked res c).created
            rw [hc]
            rfl
        · exact Or.inr h
  have h := main rel_uids ([], []) ⟨List.nodup_nil, by simp⟩
  refine ⟨h.1, fun r hr => ?_⟩
  rcases h.2 r hr with hin | hx
  · simp at hin
  · exact hx

/-- Claim C6 (amended): for every experiment, the linked-result list contains
no RES uid twice even when a RES node would match several tiers; every entry
was built from a RES node of the population whose creation date parses to the
entry's normalized instant; entries of a tier appear only when every earlier
tier produced zero matches; and tier 3 is attempted only when the short name
— the title with **every** `'@'` character removed (not just the prefix),
lowercased, split on the first `'/'` keeping the remainder — is at least 20
characters long, and requires the (lowercased) RES title to contain that
entire string verbatim. -/
theorem claim_C6_amended :
    ∀ (exp : MergedExp) (res_nodes : List RNode) (rels : List RelInstance),
      ((find_linked_res_nodes exp res_nodes rels).map fun r => r.uid).Nodup
      ∧ (∀ r ∈ find_linked_res_nodes exp res_nodes rels,
          ∃ res ∈ res_nodes,
            normalize_datetime (parse_date res.created) = some r.created
            ∧ r = mkLinked res r.created)
      ∧ ((tier1 res_nodes (relationTargets rels (res_nodes.map fun r => r.uid) exp.uid)).1 ≠ [] →
          find_linked_res_nodes exp res_nodes rels
            = (tier1 res_nodes (relationTargets rels (res_nodes.map fun r => r.uid) exp.uid)).1)
      ∧ ((tier1 res_nodes (relationTargets rels (res_nodes.map fun r => r.uid) exp.uid)).1 = [] →
          (tierScan (fun res => strContains (pyLower res.title) (expRefOf exp.title)) res_nodes
            (tier1 res_nodes (relationTargets rels (res_nodes.map fun r => r.uid) exp.uid))).1 ≠ [] →
          find_linked_res_nodes exp res_nodes rels
            = (tierScan (fun res => strContains (pyLower res.title) (expRefOf exp.title)) res_nodes
                (tier1 res_nodes (relationTargets rels (res_nodes.map fun r => r.uid) exp.uid))).1)
      ∧ ((tier1 res_nodes (relationTargets rels (res_nodes.map fun r => r.uid) exp.uid)).1 = [] →
          (tierScan (fun res => strContains (pyLower res.title) (expRefOf exp.title)) res_nodes
            (tier1 res_nodes (relationTargets rels (res_nodes.map fun r => r.uid) exp.uid))).1 = [] →
          (¬ 20 ≤ (expShortName exp.title).length →
              find_linked_res_nodes exp res_nodes rels = [])
          ∧ ∀ r ∈ find_linked_res_nodes exp res_nodes rels,
              strContains (pyLower r.title) (expShortName exp.title) = true) := by
  intro exp res_nodes rels
  have hinv1 := tier1_spec res_nodes
    (relationTargets rels (res_nodes.map fun r => r.uid) exp.uid)
  set T1 := tier1 res_nodes (relationTargets rels (res_nodes.map fun r => r.uid) exp.uid)
    with hT1
  have hinv2 := tierScan_spec
    (fun res => strContains (pyLower res.title) (expRefOf exp.title)) res_nodes T1 hinv1.1
  set T2 := tierScan (fun res => strContains (pyLower res.title) (expRefOf exp.title))
    res_nodes T1 with hT2
  have hinv3 := tierScan_spec
    (fun res => strContains (pyLower res.title) (expShortName exp.title)) res_nodes T2
    hinv2.1
  set T3 := tierScan (fun res => strContains (pyLower res.title) (expShortName exp.title))
    res_nodes T2 with hT3
  have hL : find_linked_res_nodes exp res_nodes rels
      = (if T1.1 ≠ [] then T1.1 else if T2.1 ≠ [] then T2.1
         else if 20 ≤ (expShortName exp.title).length then T3.1 else T2.1) := rfl
  by_cases h1 : T1.1 = []
  · by_cases h2 : T2.1 = []
    · by_cases h3 : 20 ≤ (expShortName exp.title).length
      · have hLe : find_linked_res_nodes exp res_nodes rels = T3.1 := by
          rw [hL]
          simp [h1, h2, h3]
        refine ⟨?_, ?_, ?_, ?_, ?_⟩
        · rw [hLe]; exact hinv3.1.1
        · rw [hLe]
          intro r hr
          rcases hinv3.2 r hr with hin | ⟨res, hm, _, hcr, hmk⟩
          · rw [h2] at hin; simp at hin
          · exact ⟨res, hm, hcr, hmk⟩
        · intro hne; exact absurd h1 hne
        · intro _ hne; exact absurd h2 hne
        · intro _ _
          constructor
          · intro hn3; exact absurd h3 hn3
          · rw [hLe]
            intro r hr
            rcases hinv3.2 r hr with hin | ⟨res, _, hcond, _, hmk⟩
            · rw [h2] at hin; simp at hin
            · have : r.title = res.title := by rw [hmk]; rfl
              rw [this]
              exact hcond
      · have hLe : find_linked_res_nodes exp res_nodes rels = T2.1 := by
          rw [hL]
          simp [h1, h2, h3]
        refine ⟨?_, ?_, ?_, ?_, ?_⟩
        · rw [hLe, h2]; exact List.nodup_nil
        · rw [hLe, h2]; intro r hr; simp at hr
        · intro hne; exact absurd h1 hne
        · intro _ hne; exact absurd h2 hne
        · intro _ _
          refine ⟨fun _ => by rw [hLe, h2], ?_⟩
          rw [hLe, h2]
          intro r hr
          simp at hr
    · have hLe : find_linked_res_nodes exp res_nodes rels = T2.1 := by
        rw [hL]
        simp [h1, h2]
      refine ⟨?_, ?_, ?_, ?_, ?_⟩
      · rw [hLe]; exact hinv2.1.1
      · rw [hLe]
        intro r hr
        rcases hinv2.2 r hr with hin | ⟨res, hm, _, hcr, hmk⟩
        · rw [h1] at hin; simp at hin
        · exact ⟨res, hm, hcr, hmk⟩
      · intro hne; exact absurd h1 hne
      · intro _ _; rw [hLe]
      · intro _ h2e; exact absurd h2e h2
  · have hLe : find_linked_res_nodes exp res_nodes rels = T1.1 := by
      rw [hL]
      simp [h1]
    refine ⟨?_, ?_, ?_, ?_, ?_⟩
    · rw [hLe]; exact hinv1.1.1
    · rw [hLe]
      intro r hr
      exact hinv1.2 r hr
    · intro _; exact hLe
    · intro h1e; exact absurd h1e h1
    · intro h1e; exact absurd h1e h1

/-- A merged-experiment input with only the fields the linker reads. -/
def mkExpStub (uid title : String) : MergedExp :=
  { uid := uid, title := title, creator := none, page_created := none,
    claimed_by := none, claimed_by_timestamp := none, issue_created_by := none,
    made_by := none, author := none, primary_contributor := none,
    attribution_method := none, claim_type := none, has_experimental_log := false,
    first_log_entry := none, log_entry_count := 0, is_claimed := false }

/-- Experiment for the C6 counterexample: its description contains a second
`'@'` character. -/
def expC6 : MergedExp := mkExpStub "e6" "@x/aaaaaaaaaa@bbbbbbbbbbb"

/-- RES node for the C6 counterexample: its title contains the code's
all-`'@'`-removed short name but not the claim's prefix-stripped short
name. -/
def resC6 : RNode :=
  { uid := "r6", title := "res of aaaaaaaaaabbbbbbbbbbb",
    created := .valid ⟨1704067200000, none⟩ }

/-- Claim C6 counterexample: stripping only the `'@type/'` prefix of
`expC6.title` (splitting on the first `'/'`, as the claim states) leaves
`"aaaaaaaaaa@bbbbbbbbbbb"`; the linked RES title does **not** contain that
string, yet tier 3 links it anyway — because the code removes every `'@'`
from the title, not just the prefix, before matching. -/
theorem claim_C6_counterexample :
    String.mk ((expC6.title.data.dropWhile fun c => c ≠ '/').drop 1)
      = "aaaaaaaaaa@bbbbbbbbbbb"
    ∧ (find_linked_res_nodes expC6 [resC6] []).map (fun r => r.uid) = ["r6"]
    ∧ strContains (pyLower resC6.title) "aaaaaaaaaa@bbbbbbbbbbb" = false := by
  refine ⟨rfl, by decide, by decide⟩

/-- Witness for the amended C6: on the concrete input the linked list has
duplicate-free uids and the tier-3 entry's title contains the code's short
name (every `'@'` removed). -/
theorem claim_C6_witness :
    ((find_linked_res_nodes expC6 [resC6] []).map fun r => r.uid).Nodup
    ∧ strContains (pyLower (mkLinked resC6 ⟨1704067200000, none⟩).title)
        (expShortName expC6.title) = true := by
  refine ⟨(claim_C6_amended expC6 [resC6] []).1, ?_⟩
  have h := (claim_C6_amended expC6 [resC6] []).2.2.2.2 rfl rfl
  exact h.2 (mkLinked resC6 ⟨1704067200000, none⟩) (by decide)

/-! ### Claim C7: time-to-first-result -/

/-- One entry of the time-to-first-result detail list
(`calculate_metrics.py` lines 503-513). -/
structure TTFRDetail where
  experiment_title : String
  claimed_by : Option String
  ref_timestamp : PyDateTime
  first_res_title : String
  first_res_created : PyDateTime
  first_res_creator : Option String
  first_res_primary_contributor : Option String
  days_to_first_result : Int
  total_linked_res : Nat
deriving DecidableEq, Repr

/-- The reference instant (lines 484-490): the claim timestamp for explicit
claims when it exists, the page-creation instant otherwise. -/
def refTimestamp (exp : MergedExp) : Option PyDateTime :=
  if exp.claim_type = some "explicit" ∧ exp.claimed_by_timestamp.isSome then
    exp.claimed_by_timestamp
  else exp.page_created

/-- Python `min(linked_res, key=created)`: the first entry attaining the
minimal creation instant. -/
def pyMinLinked (h : LinkedRes) (t : List LinkedRes) : LinkedRes :=
  t.foldl (fun best r => if r.created.ms < best.created.ms then r else best) h

/-- The loop body of `calculate_time_to_first_result` (lines 480-513): a
record contributes iff it is claimed, has a reference instant, and has at
least one linked RES node; `days_to_first_result` is the `timedelta.days` of
the earliest linked RES creation minus the reference instant (negative values
included). -/
def ttfrEntry (res_nodes : List RNode) (relation_instances : List RelInstance)
    (exp : MergedExp) : Option TTFRDetail :=
  if exp.is_claimed then
    match refTimestamp exp with
    | some ref =>
      match find_linked_res_nodes exp res_nodes relation_instances with
      | [] => none
      | h :: t =>
        let earliest := pyMinLinked h t
        some { experiment_title := exp.title
               claimed_by := exp.claimed_by
               ref_timestamp := ref
               first_res_title := earliest.title
               first_res_created := earliest.created
               first_res_creator := earliest.creator
               first_res_primary_contributor :=
                 if truthyS earliest.primary_contributor then
                   earliest.primary_contributor
                 else earliest.creator
               days_to_first_result := daysBetween earliest.created ref
               total_linked_res := (h :: t).length }
    | none => none
  else none

/-- The result dict of `calculate_time_to_first_result` (lines 515-532). -/
structure TTFR where
  count : Nat
  avg_days : Option Rat
  min_days : Option Int
  max_days : Option Int
  details : List TTFRDetail
deriving Repr

/-- `calculate_time_to_first_result` (`calculate_metrics.py`
lines 459-532). -/
def calculate_time_to_first_result (experiments : List MergedExp)
    (res_nodes : List RNode) (relation_instances : List RelInstance) : TTFR :=
  let results := experiments.filterMap (ttfrEntry res_nodes relation_instances)
  if results = [] then
    { count := 0, avg_days := none, min_days := none, max_days := none, details := [] }
  else
    let days_list := results.map fun r => r.days_to_first_result
    { count := results.length
      avg_days := some (roundTo1 (((days_list.foldl (· + ·) 0 : Int) : Rat)
        / (days_list.length : Rat)))
      min_days := intListMin days_list
      max_days := intListMax days_list
      details := results.mergeSort fun a b => a.days_to_first_result ≤ b.days_to_first_result }

theorem pyMinLinked_le (h : LinkedRes) (t : List LinkedRes) :
    (pyMinLinked h t).created.ms ≤ h.created.ms
    ∧ ∀ r ∈ t, (pyMinLinked h t).created.ms ≤ r.created.ms := by
  unfold pyMinLinked
  induction t generalizing h with
  | nil => simp
  | cons x xs ih =>
    simp only [List.foldl_cons]
    constructor
    · by_cases hx : x.created.ms < h.created.ms
      · rw [if_pos hx]
        have h1 := (ih x).1
        omega
      · rw [if_neg hx]
        exact (ih h).1
    · intro r hr
      rcases List.mem_cons.mp hr with hr | hr
      · subst hr
        by_cases hx : r.created.ms < h.created.ms
        · rw [if_pos hx]
          exact (ih r).1
        · rw [if_neg hx]
          have h1 := (ih h).1
          omega
      · by_cases hx : x.created.ms < h.created.ms
        · rw [if_pos hx]
          exact (ih x).2 r hr
        · rw [if_neg hx]
          exact (ih h).2 r hr

/-- Merged experiment for the C7 example: explicitly claimed on 2024-01-10. -/
def expC7 : MergedExp :=
  { mkExpStub "e7" "@a/t" with
    is_claimed := true
    claim_type := some "explicit"
    claimed_by := some "Y"
    claimed_by_timestamp := some ⟨1704844800000, none⟩ }

/-- RES node for the C7 example: created 2024-01-05, five days **before**
the claim, and back-referencing the experiment title. -/
def resC7 : RNode :=
  { uid := "r7", title := "xxx [[@a/t]]", created := .valid ⟨1704412800000, none⟩ }

unseal List.merge List.mergeSort in
/-- Claim C7: the time-to-first-result details cover exactly the merged
experiments with `is_claimed`, a non-null reference instant, and at least one
linked RES node; the reference instant is the claim timestamp for explicit
claims when it exists and the page-creation instant otherwise; each entry's
`days_to_first_result` is the `timedelta.days` of the earliest linked RES
creation minus the reference instant; and a negative value (RES predating the
reference instant) is surfaced in the output, as the concrete example with
value -5 shows. -/
theorem claim_C7 :
    (∀ (experiments : List MergedExp) (res_nodes : List RNode)
        (rels : List RelInstance),
      (calculate_time_to_first_result experiments res_nodes rels).details.Perm
        (experiments.filterMap (ttfrEntry res_nodes rels))
      ∧ (calculate_time_to_first_result experiments res_nodes rels).count
          = (experiments.filterMap (ttfrEntry res_nodes rels)).length
      ∧ (∀ e : MergedExp, (ttfrEntry res_nodes rels e).isSome ↔
          (e.is_claimed = true ∧ (refTimestamp e).isSome = true
            ∧ find_linked_res_nodes e res_nodes rels ≠ []))
      ∧ (∀ e : MergedExp, refTimestamp e =
          (if e.claim_type = some "explicit" ∧ e.claimed_by_timestamp.isSome then
            e.claimed_by_timestamp else e.page_created))
      ∧ (∀ e d, ttfrEntry res_nodes rels e = some d →
          refTimestamp e = some d.ref_timestamp
          ∧ d.days_to_first_result
              = (d.first_res_created.ms - d.ref_timestamp.ms).fdiv 86400000
          ∧ (∀ r ∈ find_linked_res_nodes e res_nodes rels,
              d.first_res_created.ms ≤ r.created.ms)))
    ∧ (calculate_time_to_first_result [expC7] [resC7] []).details.map
        (fun d => d.days_to_first_result) = [-5] := by
  constructor
  · intro experiments res_nodes rels
    refine ⟨?_, ?_, ?_, fun e => rfl, ?_⟩
    · simp only [calculate_time_to_first_result]
      split
      · rename_i hnil
        simp [hnil]
      · exact List.mergeSort_perm _ _
    · simp only [calculate_time_to_first_result]
      split
      · rename_i hnil
        simp [hnil]
      · rfl
    · intro e
      unfold ttfrEntry
      by_cases hc : e.is_claimed
      · cases href : refTimestamp e with
        | none => simp [hc, href]
        | some ref =>
          cases hL : find_linked_res_nodes e res_nodes rels with
          | nil => simp [hc, href, hL]
          | cons h t => simp [hc, href, hL]
      · simp [hc]
    · intro e d hd
      unfold ttfrEntry at hd
      by_cases hc : e.is_claimed
      · rw [if_pos (by simp [hc])] at hd
        cases href : refTimestamp e with
        | none =>
          rw [href] at hd
          simp at hd
        | some ref =>
          rw [href] at hd
          cases hL : find_linked_res_nodes e res_nodes rels with
          | nil =>
            rw [hL] at hd
            simp at hd
          | cons lh lt =>
            rw [hL] at hd
            simp only [Option.some.injEq] at hd
            subst hd
            refine ⟨rfl, rfl, ?_⟩
            intro r hr
            rcases List.mem_cons.mp hr with hr | hr
            · rw [hr]
              exact (pyMinLinked_le lh lt).1
            · exact (pyMinLinked_le lh lt).2 r hr
      · rw [if_neg (by simp [hc])] at hd
        simp at hd
  · rfl

/-- Witness for C7: the explicitly claimed experiment `expC7` with linked RES
node `resC7` satisfies all three inclusion conditions, so the metric includes
it (even though its day value is negative). -/
theorem claim_C7_witness : (ttfrEntry [resC7] [] expC7).isSome = true :=
  ((claim_C7.1 [expC7] [resC7] []).2.2.1 expC7).mpr ⟨rfl, rfl, by decide⟩

/-! ### Claim C8: export-pair validation -/

/-- The `{match_rate:.1%}` rendering of a (non-negative) rate, to one decimal
with round-half-even, as Python format does for exactly representable
values. -/
def fmtPercent1 (q : Rat) : String :=
  toString (rhe (q * 1000) / 10) ++ "." ++ toString (rhe (q * 1000) % 10) ++ "%"

/-- The title-overlap counts computed by `validate_roam_export`
(`parse_roam_json.py` lines 418-436): set cardinalities of the two title
populations and their intersections. -/
structure VStats where
  total_roam_pages : Nat
  jsonld_exp : Nat
  roam_exp : Nat
  exp_matched : Nat
  jsonld_iss : Nat
  roam_iss : Nat
  iss_matched : Nat
deriving DecidableEq, Repr

/-- Compute the overlap statistics: experiment titles are the pages starting
with `'@'`, issue titles the pages containing `"[[ISS]]"`; all four
collections are sets. -/
def vstats (roam_pages jsonld_exp_titles jsonld_iss_titles : List String) : VStats :=
  let jexp := jsonld_exp_titles.toFinset
  let jiss := jsonld_iss_titles.toFinset
  let rexp := (roam_pages.filter fun t => pyStartsWith t "@").toFinset
  let riss := (roam_pages.filter fun t => strContains t "[[ISS]]").toFinset
  { total_roam_pages := roam_pages.length
    jsonld_exp := jexp.card
    roam_exp := rexp.card
    exp_matched := (jexp ∩ rexp).card
    jsonld_iss := jiss.card
    roam_iss := riss.card
    iss_matched := (jiss ∩ riss).card }

/-- `match_rate = total_matched / total_jsonld if total_jsonld > 0 else 0`
(line 437). -/
def vrate (st : VStats) : Rat :=
  if 0 < st.jsonld_exp + st.jsonld_iss then
    ((st.exp_matched + st.iss_matched : Nat) : Rat)
      / ((st.jsonld_exp + st.jsonld_iss : Nat) : Rat)
  else 0

/-- The `ValueError` message raised at lines 452-459, built from the same
values the Python f-string interpolates (the threshold is not among them). -/
def validationMessage (match_rate : Rat) (total_matched total_jsonld
    total_roam_pages roam_exp jsonld_exp jsonld_iss : Nat) : String :=
  "Roam export validation failed: only " ++ fmtPercent1 match_rate
    ++ " of JSON-LD titles found in Roam export (" ++ toString total_matched
    ++ "/" ++ toString total_jsonld ++ "). The Roam export ("
    ++ toString total_roam_pages ++ " pages, " ++ toString roam_exp
    ++ " @ pages) appears to be from a different Roam graph than the JSON-LD export ("
    ++ toString jsonld_exp ++ " experiment pages, " ++ toString jsonld_iss
    ++ " ISS nodes). Please re-export the whole-graph JSON from the correct Roam database."

/-- The validation result dict (lines 439-449). -/
structure ValidationResult where
  total_roam_pages : Nat
  jsonld_experiment_pages : Nat
  roam_experiment_pages : Nat
  experiment_matches : Nat
  jsonld_iss_nodes : Nat
  roam_iss_nodes : Nat
  iss_matches : Nat
  match_rate : Rat
  passed : Bool
deriving DecidableEq, Repr

/-- `validate_roam_export` (`parse_roam_json.py` lines 398-461): returns the
result when the match rate reaches the threshold, raises `ValueError` with
the message otherwise. -/
def validate_roam_export (roam_pages jsonld_exp_titles jsonld_iss_titles : List String)
    (min_match_rate : Rat) : Except String ValidationResult :=
  let st := vstats roam_pages jsonld_exp_titles jsonld_iss_titles
  let match_rate := vrate st
  let passed := decide (min_match_rate ≤ match_rate)
  if passed then
    .ok { total_roam_pages := st.total_roam_pages
          jsonld_experiment_pages := st.jsonld_exp
          roam_experiment_pages := st.roam_exp
          experiment_matches := st.exp_matched
          jsonld_iss_nodes := st.jsonld_iss
          roam_iss_nodes := st.roam_iss
          iss_matches := st.iss_matched
          match_rate := roundTo3 match_rate
          passed := passed }
  else
    .error (validationMessage match_rate (st.exp_matched + st.iss_matched)
      (st.jsonld_exp + st.jsonld_iss) st.total_roam_pages st.roam_exp
      st.jsonld_exp st.jsonld_iss)

/-- Claim C8 (amended): the validation routine raises a fatal error — whose
message states the match rate and the match counts, but **not** the threshold
— iff the fraction of semantic-export titles found in the block-tree export
is strictly below the configurable minimum match rate; when the rate meets
the threshold it returns a result with `passed = true` and raises nothing. -/
theorem claim_C8_amended :
    ∀ (roam_pages jsonld_exp_titles jsonld_iss_titles : List String)
      (min_match_rate : Rat),
      ((∃ msg, validate_roam_export roam_pages jsonld_exp_titles jsonld_iss_titles
          min_match_rate = .error msg) ↔
        vrate (vstats roam_pages jsonld_exp_titles jsonld_iss_titles) < min_match_rate)
      ∧ (∀ msg, validate_roam_export roam_pages jsonld_exp_titles jsonld_iss_titles
            min_match_rate = .error msg →
          msg = validationMessage
            (vrate (vstats roam_pages jsonld_exp_titles jsonld_iss_titles))
            ((vstats roam_pages jsonld_exp_titles jsonld_iss_titles).exp_matched
              + (vstats roam_pages jsonld_exp_titles jsonld_iss_titles).iss_matched)
            ((vstats roam_pages jsonld_exp_titles jsonld_iss_titles).jsonld_exp
              + (vstats roam_pages jsonld_exp_titles jsonld_iss_titles).jsonld_iss)
            (vstats roam_pages jsonld_exp_titles jsonld_iss_titles).total_roam_pages
            (vstats roam_pages jsonld_exp_titles jsonld_iss_titles).roam_exp
            (vstats roam_pages jsonld_exp_titles jsonld_iss_titles).jsonld_exp
            (vstats roam_pages jsonld_exp_titles jsonld_iss_titles).jsonld_iss)
      ∧ (∀ r, validate_roam_export roam_pages jsonld_exp_titles jsonld_iss_titles
            min_match_rate = .ok r →
          r.passed = true
          ∧ min_match_rate ≤ vrate (vstats roam_pages jsonld_exp_titles jsonld_iss_titles)) := by
  intro roam_pages jexp jiss thr
  by_cases hp : thr ≤ vrate (vstats roam_pages jexp jiss)
  · have hv : validate_roam_export roam_pages jexp jiss thr = .ok
        { total_roam_pages := (vstats roam_pages jexp jiss).total_roam_pages
          jsonld_experiment_pages := (vstats roam_pages jexp jiss).jsonld_exp
          roam_experiment_pages := (vstats roam_pages jexp jiss).roam_exp
          experiment_matches := (vstats roam_pages jexp jiss).exp_matched
          jsonld_iss_nodes := (vstats roam_pages jexp jiss).jsonld_iss
          roam_iss_nodes := (vstats roam_pages jexp jiss).roam_iss
          iss_matches := (vstats roam_pages jexp jiss).iss_matched
          match_rate := roundTo3 (vrate (vstats roam_pages jexp jiss))
          passed := decide (thr ≤ vrate (vstats roam_pages jexp jiss)) } := by
      unfold validate_roam_export
      rw [if_pos (by simpa using hp)]
    refine ⟨?_, ?_, ?_⟩
    · constructor
      · rintro ⟨msg, hmsg⟩
        rw [hv] at hmsg
        exact absurd hmsg (by simp)
      · intro hlt
        exact absurd hp (not_le.mpr hlt)
    · intro msg hmsg
      rw [hv] at hmsg
      exact absurd hmsg (by simp)
    · intro r hr
      rw [hv] at hr
      simp only [Except.ok.injEq] at hr
      subst hr
      exact ⟨by simp [hp], hp⟩
  · have hv : validate_roam_export roam_pages jexp jiss thr = .error
        (validationMessage (vrate (vstats roam_pages jexp jiss))
          ((vstats roam_pages jexp jiss).exp_matched
            + (vstats roam_pages jexp jiss).iss_matched)
          ((vstats roam_pages jexp jiss).jsonld_exp
            + (vstats roam_pages jexp jiss).jsonld_iss)
          (vstats roam_pages jexp jiss).total_roam_pages
          (vstats roam_pages jexp jiss).roam_exp
          (vstats roam_pages jexp jiss).jsonld_exp
          (vstats roam_pages jexp jiss).jsonld_iss) := by
      unfold validate_roam_export
      rw [if_neg (by simpa using hp)]
    refine ⟨?_, ?_, ?_⟩
    · constructor
      · intro _
        exact not_le.mp hp
      · intro _
        exact ⟨_, hv⟩
    · intro msg hmsg
      rw [hv] at hmsg
      simp only [Except.error.injEq] at hmsg
      exact hmsg.symm
    · intro r hr
      rw [hv] at hr
      exact absurd hr (by simp)

theorem rhe_zero_mul : rhe (0 * 1000) = 0 := by
  unfold rhe
  norm_num

/-- The `:.1%` rendering of a zero match rate. -/
theorem fmtPercent1_zero : fmtPercent1 0 = "0.0%" := by
  unfold fmtPercent1
  rw [rhe_zero_mul]
  decide

/-- The concrete error message for the C8 counterexample population: one
semantic-export experiment title, an empty block-tree export, match rate
0.0. -/
def msgC8 : String := validationMessage 0 0 1 0 0 1 0

set_option maxRecDepth 8192 in
theorem msgC8_literal : msgC8 =
    "Roam export validation failed: only 0.0% of JSON-LD titles found in Roam export (0/1). The Roam export (0 pages, 0 @ pages) appears to be from a different Roam graph than the JSON-LD export (1 experiment pages, 0 ISS nodes). Please re-export the whole-graph JSON from the correct Roam database." := by
  unfold msgC8 validationMessage
  rw [fmtPercent1_zero]
  decide

/-- Overlap statistics of the failing C8 population. -/
def vstC8fail : VStats :=
  { total_roam_pages := 0, jsonld_exp := 1, roam_exp := 0, exp_matched := 0,
    jsonld_iss := 0, roam_iss := 0, iss_matched := 0 }

/-- Overlap statistics of the passing C8 population. -/
def vstC8pass : VStats :=
  { total_roam_pages := 1, jsonld_exp := 1, roam_exp := 1, exp_matched := 1,
    jsonld_iss := 0, roam_iss := 0, iss_matched := 0 }

set_option maxRecDepth 8192 in
theorem vstatsC8fail : vstats [] ["@a/some experiment"] [] = vstC8fail := by
  decide

set_option maxRecDepth 8192 in
theorem vstatsC8pass :
    vstats ["@a/some experiment"] ["@a/some experiment"] [] = vstC8pass := by
  decide

theorem vrateC8fail : vrate (vstats [] ["@a/some experiment"] []) = 0 := by
  rw [vstatsC8fail]
  norm_num [vrate, vstC8fail]

set_option maxRecDepth 8192 in
/-- Claim C8 counterexample: on a failing input the raised message is
identical for thresholds 0.5 and 0.75 — so it cannot state the threshold —
and it contains neither "threshold" nor any rendering of 0.5 ("0.5", "50");
it does state the match rate ("0.0%").  This refutes the parenthetical of the
claim that the fatal error message states the threshold. -/
theorem claim_C8_counterexample :
    validate_roam_export [] ["@a/some experiment"] [] (1/2) = .error msgC8
    ∧ validate_roam_export [] ["@a/some experiment"] [] (3/4) = .error msgC8
    ∧ strContains msgC8 "threshold" = false
    ∧ strContains msgC8 "0.5" = false
    ∧ strContains msgC8 "50" = false
    ∧ strContains msgC8 "0.0%" = true := by
  have herr : ∀ thr : Rat, ¬ thr ≤ 0 →
      validate_roam_export [] ["@a/some experiment"] [] thr = .error msgC8 := by
    intro thr hthr
    unfold validate_roam_export
    rw [vstatsC8fail]
    have hr : vrate vstC8fail = 0 := by norm_num [vrate, vstC8fail]
    simp only [hr]
    rw [if_neg (by simpa using hthr)]
    rfl
  refine ⟨herr (1/2) (by norm_num), herr (3/4) (by norm_num), ?_, ?_, ?_, ?_⟩ <;>
    rw [msgC8_literal] <;> decide

/-- Witness for the amended C8: the failing population raises (its match rate
0 is below the 0.5 threshold), and the population whose single title appears
in the block-tree export (match rate 1) raises nothing. -/
theorem claim_C8_witness :
    (∃ msg, validate_roam_export [] ["@a/some experiment"] [] (1/2) = .error msg)
    ∧ ¬ (∃ msg, validate_roam_export ["@a/some experiment"] ["@a/some experiment"] []
          (1/2) = .error msg) := by
  constructor
  · apply (claim_C8_amended [] ["@a/some experiment"] [] (1/2)).1.mpr
    rw [vrateC8fail]
    norm_num
  · intro h
    have hlt := (claim_C8_amended ["@a/some experiment"] ["@a/some experiment"] []
      (1/2)).1.mp h
    rw [vstatsC8pass] at hlt
    norm_num [vrate, vstC8pass] at hlt

/-! ### Claim C9: Kaplan-Meier estimator -/

/-- `sorted(event_list, key=lambda x: x[0])`. -/
def sortPairs (l : List (Int × Bool)) : List (Int × Bool) :=
  l.mergeSort fun a b => a.1 ≤ b.1

/-- The while loop of `kaplan_meier`
(`experiment_lifecycle_visualizations.py` lines 924-944), written with a
structural fuel argument (the fuel is always at least the list length, so the
zero-fuel branch is never reached): take the group of entries sharing the
leading time, count events and censorings, multiply the survival when events
occurred, decrement the at-risk count by the group size, and stop early when
it reaches zero. -/
def kmStepsF : Nat → List (Int × Bool) → Nat → Rat → List (Int × Rat)
  | 0, _, _, _ => []
  | _ + 1, [], _, _ => []
  | fuel + 1, (t, e) :: rest, n, s =>
    let grp := rest.takeWhile fun p => p.1 = t
    let rest2 := rest.dropWhile fun p => p.1 = t
    let d := (if e then 1 else 0) + (grp.filter fun p => p.2).length
    let c := (1 + grp.length) - d
    let n2 := n - (d + c)
    if 0 < d then
      let s2 := s * (1 - (d : Rat) / (n : Rat))
      (t, s2) :: (if n2 = 0 then [] else kmStepsF fuel rest2 n2 s2)
    else if n2 = 0 then [] else kmStepsF fuel rest2 n2 s

/-- `kaplan_meier` (lines 915-947): survival starts at `(time 0, 1.0)`; the
loop appends one `(time, survival)` pair per distinct time with at least one
event. -/
def kaplan_meier (event_list : List (Int × Bool)) : List Int × List Rat :=
  if event_list = [] then ([], [])
  else
    (0 :: (kmStepsF (sortPairs event_list).length (sortPairs event_list)
        (sortPairs event_list).length 1).map fun p => p.1,
     1 :: (kmStepsF (sortPairs event_list).length (sortPairs event_list)
        (sortPairs event_list).length 1).map fun p => p.2)

/-- Spec-side count of events (`d_i`) at time `t`. -/
def dCount (l : List (Int × Bool)) (t : Int) : Nat :=
  (l.filter fun p => decide (p.1 = t) && p.2).length

/-- Spec-side number still at risk (`n_i`) when time `t` is processed: the
observations with time at least `t`. -/
def nAtRisk (l : List (Int × Bool)) (t : Int) : Nat :=
  (l.filter fun p => decide (t ≤ p.1)).length

/-- The product-limit recurrence as the spec words it: walking the distinct
times in increasing order, a time with `d > 0` events among the `n` still at
risk multiplies the survival by `(1 - d / n)` and is emitted; a time with
censorings only leaves the survival unchanged and emits nothing. -/
def specLoop (l : List (Int × Bool)) : List Int → Rat → List (Int × Rat)
  | [], _ => []
  | t :: ts, s =>
    if 0 < dCount l t then
      (t, s * (1 - (dCount l t : Rat) / (nAtRisk l t : Rat))) ::
        specLoop l ts (s * (1 - (dCount l t : Rat) / (nAtRisk l t : Rat)))
    else specLoop l ts s

/-- The distinct observation times in increasing order. -/
def sortedDistinctTimes (l : List (Int × Bool)) : List Int :=
  ((sortPairs l).map fun p => p.1).dedup

/-- The Kaplan-Meier curve as the spec describes it: survival 1 at time 0,
then the product-limit recurrence over the distinct times. -/
def kmSpec (event_list : List (Int × Bool)) : List Int × List Rat :=
  if event_list = [] then ([], [])
  else
    (0 :: (specLoop (sortPairs event_list) (sortedDistinctTimes event_list) 1).map
        fun p => p.1,
     1 :: (specLoop (sortPairs event_list) (sortedDistinctTimes event_list) 1).map
        fun p => p.2)

theorem dropWhile_time_gt (t : Int) :
    ∀ rest : List (Int × Bool), rest.Pairwise (fun a b => a.1 ≤ b.1) →
      (∀ p ∈ rest, t ≤ p.1) →
      ∀ p ∈ rest.dropWhile fun q => q.1 = t, t < p.1 := by
  intro rest
  induction rest with
  | nil => intro _ _ p hp; simp at hp
  | cons x xs ih =>
    intro hsort hge p hp
    by_cases hx : x.1 = t
    · rw [List.dropWhile_cons_of_pos (by simpa using hx)] at hp
      exact ih (List.Pairwise.sublist (List.sublist_cons_self x xs) hsort)
        (fun q hq => hge q (List.mem_cons_of_mem _ hq)) p hp
    · rw [List.dropWhile_cons_of_neg (by simpa using hx)] at hp
      have hxt : t < x.1 := lt_of_le_of_ne (hge x (List.mem_cons_self x xs)) (Ne.symm hx)
      rcases List.mem_cons.mp hp with hp | hp
      · subst hp; exact hxt
      · have := (List.pairwise_cons.mp hsort).1 p hp
        omega

theorem dCount_cons_group (t : Int) (e : Bool) (grp rest2 : List (Int × Bool))
    (hgrp : ∀ p ∈ grp, p.1 = t) (hrest2 : ∀ p ∈ rest2, p.1 ≠ t) :
    dCount ((t, e) :: (grp ++ rest2)) t
      = (if e then 1 else 0) + (grp.filter fun p => p.2).length := by
  unfold dCount
  rw [List.filter_cons, List.filter_append]
  have hg : grp.filter (fun p => decide (p.1 = t) && p.2) = grp.filter fun p => p.2 := by
    apply List.filter_congr
    intro p hp
    simp [hgrp p hp]
  have hr : rest2.filter (fun p => decide (p.1 = t) && p.2) = [] := by
    rw [List.filter_eq_nil_iff]
    intro p hp
    simp [hrest2 p hp]
  rw [hg, hr]
  cases e with
  | false => simp
  | true => simp; omega

theorem nAtRisk_eq_length (t : Int) (l : List (Int × Bool))
    (h : ∀ p ∈ l, t ≤ p.1) : nAtRisk l t = l.length := by
  unfold nAtRisk
  rw [List.filter_eq_self.mpr]
  intro p hp
  simpa using h p hp

theorem counts_tail (t t2 : Int) (e : Bool) (grp rest2 : List (Int × Bool))
    (hgrp : ∀ p ∈ grp, p.1 = t) (ht2 : t < t2) :
    dCount ((t, e) :: (grp ++ rest2)) t2 = dCount rest2 t2
    ∧ nAtRisk ((t, e) :: (grp ++ rest2)) t2 = nAtRisk rest2 t2 := by
  constructor
  · unfold dCount
    rw [List.filter_cons, List.filter_append]
    have hhead : (decide ((t, e).1 = t2) && (t, e).2) = false := by
      simp; omega
    have hg : grp.filter (fun p => decide (p.1 = t2) && p.2) = [] := by
      rw [List.filter_eq_nil_iff]
      intro p hp
      have := hgrp p hp
      simp [this]
      omega
    rw [hhead, hg]
    simp
  · unfold nAtRisk
    rw [List.filter_cons, List.filter_append]
    have hhead : (decide (t2 ≤ (t, e).1)) = false := by
      simp; omega
    have hg : grp.filter (fun p => decide (t2 ≤ p.1)) = [] := by
      rw [List.filter_eq_nil_iff]
      intro p hp
      have := hgrp p hp
      simp [this]
      omega
    rw [hhead, hg]
    simp

theorem specLoop_congr (l1 l2 : List (Int × Bool)) :
    ∀ ts : List Int, (∀ t2 ∈ ts, dCount l1 t2 = dCount l2 t2
        ∧ nAtRisk l1 t2 = nAtRisk l2 t2) →
      ∀ s, specLoop l1 ts s = specLoop l2 ts s := by
  intro ts
  induction ts with
  | nil => intro _ _; rfl
  | cons t ts ih =>
    intro h s
    have ht := h t (List.mem_cons_self t ts)
    have hrec := ih fun t2 h2 => h t2 (List.mem_cons_of_mem _ h2)
    unfold specLoop
    rw [ht.1, ht.2]
    split
    · rw [hrec]
    · rw [hrec]

theorem dedup_cons_group (t : Int) (gts rts : List Int)
    (hg : ∀ x ∈ gts, x = t) (hr : t ∉ rts) :
    (t :: (gts ++ rts)).dedup = t :: rts.dedup := by
  induction gts with
  | nil => simpa using List.dedup_cons_of_not_mem hr
  | cons g gts ih =>
    have hgt : g = t := hg g (List.mem_cons_self g gts)
    subst hgt
    have hmem : g ∈ g :: (gts ++ rts) := by simp
    rw [show (g :: gts) ++ rts = g :: (gts ++ rts) from rfl,
      List.dedup_cons_of_mem hmem]
    exact ih fun x hx => hg x (List.mem_cons_of_mem _ hx)

theorem kmStepsF_eq :
    ∀ (fuel : Nat) (l : List (Int × Bool)), l.length ≤ fuel →
      l.Pairwise (fun a b => a.1 ≤ b.1) →
      ∀ s, kmStepsF fuel l l.length s
        = specLoop l ((l.map fun p => p.1).dedup) s := by
  intro fuel
  induction fuel with
  | zero =>
    intro l hlen _ s
    have hnil : l = [] := List.length_eq_zero.mp (Nat.le_zero.mp hlen)
    subst hnil
    rfl
  | succ fuel ih =>
    intro l hlen hsort s
    match l with
    | [] => rfl
    | (t, e) :: rest =>
      have hpair := List.pairwise_cons.mp hsort
      have hge_rest : ∀ p ∈ rest, t ≤ p.1 := hpair.1
      have hsort_rest : rest.Pairwise (fun a b => a.1 ≤ b.1) := hpair.2
      have hmem_grp : ∀ p ∈ rest.takeWhile (fun p => p.1 = t), p.1 = t := by
        intro p hp
        have := List.mem_takeWhile_imp hp
        simpa using this
      have hgt : ∀ p ∈ rest.dropWhile (fun p => p.1 = t), t < p.1 :=
        dropWhile_time_gt t rest hsort_rest hge_rest
      have hsplit : rest.takeWhile (fun p => p.1 = t)
          ++ rest.dropWhile (fun p => p.1 = t) = rest :=
        List.takeWhile_append_dropWhile _ _
      have hsort2 : (rest.dropWhile (fun p => p.1 = t)).Pairwise
          (fun a b => a.1 ≤ b.1) :=
        List.Pairwise.sublist (List.dropWhile_sublist _) hsort_rest
      have hlen2 : (rest.dropWhile (fun p => p.1 = t)).length ≤ fuel := by
        have h1 : (rest.dropWhile (fun p => p.1 = t)).length ≤ rest.length :=
          (List.dropWhile_sublist _).length_le
        simp only [List.length_cons] at hlen
        omega
      have hIH := ih (rest.dropWhile (fun p => p.1 = t)) hlen2 hsort2
      -- counts at the leading time
      have hdC : dCount ((t, e) :: rest) t
          = (if e then 1 else 0)
            + ((rest.takeWhile (fun p => p.1 = t)).filter fun p => p.2).length := by
        conv_lhs => rw [← hsplit]
        exact dCount_cons_group t e _ _ hmem_grp
          (fun p hp => by have := hgt p hp; omega)
      have hnR : nAtRisk ((t, e) :: rest) t = ((t, e) :: rest).length := by
        apply nAtRisk_eq_length
        intro p hp
        rcases List.mem_cons.mp hp with hp | hp
        · subst hp; omega
        · exact hge_rest p hp
      -- the distinct-times list decomposes
      have hdedup : ((((t, e) :: rest).map fun p => p.1).dedup)
          = t :: (((rest.dropWhile (fun p => p.1 = t)).map fun p => p.1).dedup) := by
        have hmap : (((t, e) :: rest).map fun p => p.1)
            = t :: (((rest.takeWhile (fun p => p.1 = t)).map fun p => p.1)
              ++ ((rest.dropWhile (fun p => p.1 = t)).map fun p => p.1)) := by
          rw [← List.map_append, hsplit]
          rfl
        rw [hmap]
        apply dedup_cons_group
        · intro x hx
          obtain ⟨p, hp, hpx⟩ := List.mem_map.mp hx
          rw [← hpx]
          exact hmem_grp p hp
        · intro hx
          obtain ⟨p, hp, hpx⟩ := List.mem_map.mp hx
          have := hgt p hp
          omega
      -- counts at later times come from the tail beyond the group
      have hcongr : ∀ s2, specLoop ((t, e) :: rest)
            (((rest.dropWhile (fun p => p.1 = t)).map fun p => p.1).dedup) s2
          = specLoop (rest.dropWhile (fun p => p.1 = t))
            (((rest.dropWhile (fun p => p.1 = t)).map fun p => p.1).dedup) s2 := by
        intro s2
        apply specLoop_congr
        intro t2 ht2
        have ht2mem : t2 ∈ (rest.dropWhile (fun p => p.1 = t)).map fun p => p.1 :=
          List.mem_dedup.mp ht2
        obtain ⟨p, hp, hpt⟩ := List.mem_map.mp ht2mem
        have hlt : t < t2 := by
          have := hgt p hp
          omega
        have := counts_tail t t2 e (rest.takeWhile (fun p => p.1 = t))
          (rest.dropWhile (fun p => p.1 = t)) hmem_grp hlt
        constructor
        · conv_lhs => rw [← hsplit]
          exact this.1
        · conv_lhs => rw [← hsplit]
          exact this.2
      -- the group size accounting
      have hdlen : (if e then 1 else 0)
            + ((rest.takeWhile (fun p => p.1 = t)).filter fun p => p.2).length
          ≤ 1 + (rest.takeWhile (fun p => p.1 = t)).length := by
        have := List.length_filter_le (fun (p : Int × Bool) => p.2)
          (rest.takeWhile (fun p => p.1 = t))
        cases e <;> simp <;> omega
      have hlensplit : rest.length = (rest.takeWhile (fun p => p.1 = t)).length
          + (rest.dropWhile (fun p => p.1 = t)).length := by
        conv_lhs => rw [← hsplit]
        exact List.length_append _ _
      rw [hdedup]
      simp only [kmStepsF, specLoop]
      rw [hdC, hnR]
      set D := (if e then 1 else 0)
        + ((rest.takeWhile (fun p => p.1 = t)).filter fun p => p.2).length with hDdef
      set G := (rest.takeWhile (fun p => p.1 = t)).length with hGdef
      set R2 := rest.dropWhile (fun p => p.1 = t) with hR2def
      have hn2eq : ((t, e) :: rest).length - (D + (1 + G - D)) = R2.length := by
        simp only [List.length_cons]
        omega
      rw [hn2eq]
      by_cases hD : 0 < D
      · rw [if_pos hD, if_pos hD]
        congr 1
        by_cases hR2 : R2.length = 0
        · rw [if_pos hR2]
          have hnil : R2 = [] := List.length_eq_zero.mp hR2
          rw [hnil]
          rfl
        · rw [if_neg hR2, hIH]
          exact (hcongr _).symm
      · rw [if_neg hD, if_neg hD]
        by_cases hR2 : R2.length = 0
        · rw [if_pos hR2]
          have hnil : R2 = [] := List.length_eq_zero.mp hR2
          rw [hnil]
          rfl
        · rw [if_neg hR2, hIH]
          exact (hcongr _).symm

/-- The C9 example population: five claimed experiments, one producing its
first result at day 10, the others censored at days 20-23. -/
def kmEx : List (Int × Bool) := [(10, true), (20, false), (21, false), (22, false), (23, false)]

unseal List.merge List.mergeSort in
/-- Claim C9: the code's Kaplan-Meier estimator equals the product-limit
formula — starting from survival 1 at time 0, each distinct time with
`d > 0` events among the `n` still at risk multiplies the survival by
`(1 - d / n)`, censoring-only times leave it unchanged, and the at-risk
count decreases by the group size after each step (in the code, by
`d + c`).  On the example population, one event at day 10 with five at risk
gives survival 4/5, and the later censoring-only days leave it there. -/
theorem claim_C9 :
    (∀ l : List (Int × Bool), kaplan_meier l = kmSpec l)
    ∧ kaplan_meier kmEx = ([0, 10], [1, 4/5]) := by
  have hmain : ∀ l : List (Int × Bool), kaplan_meier l = kmSpec l := by
    intro l
    unfold kaplan_meier kmSpec
    by_cases hl : l = []
    · simp [hl]
    · rw [if_neg hl, if_neg hl]
      have hsorted : (sortPairs l).Pairwise fun a b => a.1 ≤ b.1 := by
        have h := @List.sorted_mergeSort (Int × Bool)
          (fun a b => decide (a.1 ≤ b.1))
          (by intro a b c h1 h2; simp at h1 h2 ⊢; omega)
          (by intro a b; simp; omega) l
        exact h.imp (by intro a b hh; simpa using hh)
      have heq := kmStepsF_eq (sortPairs l).length (sortPairs l) le_rfl hsorted 1
      rw [heq]
      rfl
  refine ⟨hmain, ?_⟩
  rw [hmain]
  have e10 : dCount (sortPairs kmEx) 10 = 1 := by decide
  have n10 : nAtRisk (sortPairs kmEx) 10 = 5 := by decide
  have e20 : dCount (sortPairs kmEx) 20 = 0 := by decide
  have e21 : dCount (sortPairs kmEx) 21 = 0 := by decide
  have e22 : dCount (sortPairs kmEx) 22 = 0 := by decide
  have e23 : dCount (sortPairs kmEx) 23 = 0 := by decide
  have hdt : sortedDistinctTimes kmEx = [10, 20, 21, 22, 23] := by decide
  unfold kmSpec
  rw [if_neg (by decide), hdt]
  norm_num [specLoop, e10, n10, e20, e21, e22, e23]

/-! ### Claim C10: block-level extraction of claim/attribution fields -/

/-- A block of the block-tree export: a text string, an optional
epoch-millisecond creation time, and nested children. -/
inductive Block where
  | node (str : String) (createTime : Option Int) (children : List Block)
deriving Repr

/-- The `string` field of a block. -/
def Block.str : Block → String
  | .node s _ _ => s

/-- The `create-time` field of a block. -/
def Block.createTime : Block → Option Int
  | .node _ c _ => c

/-- The `children` field of a block. -/
def Block.children : Block → List Block
  | .node _ _ cs => cs

/-- A page of the block-tree export. -/
structure Page where
  title : String
  createTime : Option Int := none
  children : List Block := []

mutual
/-- Total number of blocks in a block. -/
def Block.count : Block → Nat
  | .node _ _ cs => 1 + countList cs
/-- Total number of blocks in a forest. -/
def countList : List Block → Nat
  | [] => 0
  | b :: rest => Block.count b + countList rest
end

/-- The recursive search of `find_block_by_content`
(`parse_roam_json.py` lines 114-123) in iterative pre-order form: examine the
block at the top of the stack, return it when its string matches, otherwise
push its children in front of its siblings.  The fuel argument (one unit per
visited block, so the total block count always suffices) only makes the
recursion structural. -/
def findBlockDFSF (p : String → Bool) : Nat → List Block → Option Block
  | 0, _ => none
  | _ + 1, [] => none
  | fuel + 1, b :: rest =>
    if p b.str then some b else findBlockDFSF p fuel (b.children ++ rest)

/-- `find_block_by_content(page, pattern, recursive=True)`: first matching
block of the page in pre-order, `pattern` already compiled to a predicate. -/
def find_block_by_content (page : Page) (p : String → Bool) : Option Block :=
  findBlockDFSF p (countList page.children) page.children

/-- Case-insensitive substring search, the effect of
`re.search(literal, s, re.IGNORECASE)` for the literal field patterns
(`needle` given in lowercase). -/
def containsCI (s : String) (needle : String) : Bool :=
  strContains (pyLower s) needle

/-- `datetime.utcfromtimestamp(ct / 1000)`: succeeds exactly within the
representable datetime range (year 1 to 9999), yielding a naive UTC
instant. -/
def utcfromtimestampMs (ct : Int) : Option PyDateTime :=
  if -62135596800000 ≤ ct ∧ ct ≤ 253402300799999 then some ⟨ct, none⟩ else none

/-- `get_block_timestamp` (`parse_roam_json.py` lines 74-86): `None` when the
`create-time` field is absent or falsy (0), or out of datetime range. -/
def get_block_timestamp (b : Block) : Option PyDateTime :=
  match b.createTime with
  | none => none
  | some ct => if ct = 0 then none else utcfromtimestampMs ct

/-- Python `\s` on the ASCII whitespace the exports use. -/
def isPySpace (c : Char) : Bool :=
  c = ' ' ∨ c = '\t' ∨ c = '\n' ∨ c = '\r' ∨ c = '\x0b' ∨ c = '\x0c'

/-- Try to consume a literal at the head of the character list. -/
def stripLit (lit : String) (s : List Char) : Option (List Char) :=
  if lit.data.isPrefixOf s then some (s.drop lit.length) else none

/-- The capture of `\[\[([^\]]+)\]\]`: a non-empty run of characters other
than a closing bracket, followed by two closing brackets. -/
def grabPerson (s : List Char) : Option String :=
  let name := s.takeWhile fun c => c ≠ ']'
  let rest := s.drop name.length
  if name = [] then none
  else
    match rest with
    | ']' :: ']' :: _ => some (String.mk name)
    | _ => none

/-- The tail `\s*\[\[([^\]]+)\]\]` of every extraction regex. -/
def parseBracketPerson (s : List Char) : Option String :=
  match stripLit "[[" (s.dropWhile isPySpace) with
  | some rest => grabPerson rest
  | none => none

/-- One position of a field-extraction regex
`(lit1|lit2|...)::\s*\[\[([^\]]+)\]\]`: try each alternative literal (the
`::` is included in the literals below) and its continuation. -/
def tryFieldAt (lits : List String) (s : List Char) : Option String :=
  lits.findSome? fun lit =>
    match stripLit lit s with
    | some rest => parseBracketPerson rest
    | none => none

/-- `re.search` for the field-extraction regexes: leftmost match wins. -/
def reSearch (f : List Char → Option String) : List Char → Option String
  | [] => f []
  | c :: rest =>
    match f (c :: rest) with
    | some r => some r
    | none => reSearch f rest

/-- `extract_claimed_by_timestamp` (`parse_roam_json.py` lines 147-167):
when the person parses but the block timestamp does not resolve, the whole
extraction returns `None` — the claim is dropped. -/
def extract_claimed_by_timestamp (page : Page) : Option (String × PyDateTime) :=
  match find_block_by_content page (fun s => containsCI s "claimed by::") with
  | none => none
  | some block =>
    match reSearch (tryFieldAt ["Claimed By::"]) block.str.data with
    | some person =>
      match get_block_timestamp block with
      | some ts => some (person, ts)
      | none => none
    | none => none

/-- The combined extraction regex `(?:Made [Bb]y|Creator)::\s*\[\[...\]\]`
used inside `extract_made_by_timestamp`. -/
def madeByCombined : List Char → Option String :=
  reSearch (tryFieldAt ["Made By::", "Made by::", "Creator::"])

/-- `extract_made_by_timestamp` (`parse_roam_json.py` lines 193-228): in the
analogous no-timestamp case this returns `(person, None)` instead of
dropping the field. -/
def extract_made_by_timestamp (page : Page) : Option (String × Option PyDateTime) :=
  let step1 :=
    match find_block_by_content page (fun s => containsCI s "made by::") with
    | some block =>
      match madeByCombined block.str.data with
      | some person => some (person, get_block_timestamp block)
      | none => none
    | none => none
  match step1 with
  | some r => some r
  | none =>
    let step2 :=
      match find_block_by_content page (fun s => containsCI s "creator::") with
      | some block =>
        match madeByCombined block.str.data with
        | some person => some (person, get_block_timestamp block)
        | none => none
      | none => none
    match step2 with
    | some r => some r
    | none =>
      match find_block_by_content page (fun s => containsCI s "created by::") with
      | some block =>
        if containsCI block.str "issue created by::" then none
        else
          match reSearch (tryFieldAt ["Created By::", "Created by::"]) block.str.data with
          | some person => some (person, get_block_timestamp block)
          | none => none
      | none => none

/-- `extract_author_from_page` (`parse_roam_json.py` lines 231-252): also
returns `(person, None)` when the timestamp does not resolve. -/
def extract_author_from_page (page : Page) : Option (String × Option PyDateTime) :=
  match find_block_by_content page (fun s => containsCI s "author::") with
  | none => none
  | some block =>
    match reSearch (tryFieldAt ["Author::"]) block.str.data with
    | some person => some (person, get_block_timestamp block)
    | none => none

/-- Claim C10: when the first `Claimed By::` block parses a `[[Person]]` name
but its creation timestamp cannot be resolved, `extract_claimed_by_timestamp`
returns `None` — the claim is dropped entirely — whereas
`extract_made_by_timestamp` and `extract_author_from_page` in the analogous
case return `(person, None)`.  Consequently, with the block-tree facts wired
from these extractors as `analyze_all_experiment_pages` does, a Claimed By
declaration without a resolvable timestamp can never produce an explicit
claim in the merged record. -/
theorem claim_C10 :
    (∀ (page : Page) (b : Block) (p : String),
      find_block_by_content page (fun s => containsCI s "claimed by::") = some b →
      reSearch (tryFieldAt ["Claimed By::"]) b.str.data = some p →
      get_block_timestamp b = none →
      extract_claimed_by_timestamp page = none)
    ∧ (∀ (page : Page) (b : Block) (p : String),
      find_block_by_content page (fun s => containsCI s "made by::") = some b →
      madeByCombined b.str.data = some p →
      get_block_timestamp b = none →
      extract_made_by_timestamp page = some (p, none))
    ∧ (∀ (page : Page) (b : Block) (p : String),
      find_block_by_content page (fun s => containsCI s "author::") = some b →
      reSearch (tryFieldAt ["Author::"]) b.str.data = some p →
      get_block_timestamp b = none →
      extract_author_from_page page = some (p, none))
    ∧ (∀ (exp : JExp) (roam_data : RoamExp) (page : Page),
      roam_data.claimed_by
          = (extract_claimed_by_timestamp page).map (fun pt => (pt.1, some pt.2)) →
      extract_claimed_by_timestamp page = none →
      (mergeExperiment exp roam_data).claim_type ≠ some "explicit") := by
  refine ⟨?_, ?_, ?_, ?_⟩
  · intro page b p hfind hre hts
    unfold extract_claimed_by_timestamp
    rw [hfind]
    simp only [hre, hts]
  · intro page b p hfind hre hts
    unfold extract_made_by_timestamp
    rw [hfind]
    simp only [hre, hts]
  · intro page b p hfind hre hts
    unfold extract_author_from_page
    rw [hfind]
    simp only [hre, hts]
  · intro exp roam_data page hwire hnone
    rw [hnone] at hwire
    simp only [Option.map_none'] at hwire
    have hct : (mergeExperiment exp roam_data).claim_type =
        (if (!truthyS (match roam_data.claimed_by with
              | some pt => some pt.1
              | none => exp.claimed_by)
            && roam_data.has_experimental_log
            && decide (0 < roam_data.log_entry_count)
            && truthyS exp.creator) = true then some "inferred"
         else match roam_data.claimed_by with
              | some _ => some "explicit"
              | none => none) := rfl
    rw [hct, hwire]
    split
    · simp
    · simp

/-- The Claimed By block of the C10 witness page: a parseable person and no
`create-time`. -/
def blkClaimW : Block := .node "Claimed By:: [[Alice]]" none []

/-- The Made by block of the C10 witness page. -/
def blkMadeW : Block := .node "Made by:: [[Bob]]" none []

/-- The Author block of the C10 witness page. -/
def blkAuthorW : Block := .node "Author:: [[Carol]]" none []

/-- The C10 witness page: all three attribution blocks lack timestamps. -/
def pageC10 : Page :=
  { title := "@a/w10", children := [blkClaimW, blkMadeW, blkAuthorW] }

/-- Witness for C10: on the concrete page the claim extraction drops the
claim, the made-by and author extractions keep the person with a null
timestamp, and the merged record wired from these extractors cannot be an
explicit claim. -/
theorem claim_C10_witness :
    extract_claimed_by_timestamp pageC10 = none
    ∧ extract_made_by_timestamp pageC10 = some ("Bob", none)
    ∧ extract_author_from_page pageC10 = some ("Carol", none)
    ∧ (mergeExperiment { uid := "e10", title := "@a/w10" } RoamExp.empty).claim_type
        ≠ some "explicit" := by
  have h1 : extract_claimed_by_timestamp pageC10 = none :=
    claim_C10.1 pageC10 blkClaimW "Alice" rfl rfl rfl
  refine ⟨h1, ?_, ?_, ?_⟩
  · exact claim_C10.2.1 pageC10 blkMadeW "Bob" rfl rfl rfl
  · exact claim_C10.2.2.1 pageC10 blkAuthorW "Carol" rfl rfl rfl
  · exact claim_C10.2.2.2 { uid := "e10", title := "@a/w10" } RoamExp.empty pageC10
      (by rw [h1]; rfl) h1
